import Mathlib

/-!
# Verification of the competitor-monitor scoring core

Shallow embedding of the evidence-based comparison engine
(`src/analysis/ai_summary.py`) and the diff/change detector
(`src/analysis/diff.py`), with theorems settling the frozen claims.

Modelling conventions:
* Python `str` is modelled as `List Char` for text processing; produced
  report strings are Lean `String`s.  `str.lower`/`str.strip` are modelled
  with `Char.toLower` and an ASCII whitespace predicate (the source only
  manipulates ASCII keyword tables; Unicode-only case/space differences are
  outside the model).
* Python `float` arithmetic is modelled exactly over `ℚ`; Python's
  banker's rounding `round(x, n)` is modelled by `pyRound` (round half to
  even).
* Python dicts used as score mappings are association lists
  (`List (String × _)`); a missing key is `List.lookup _ _ = none`, which
  mirrors `k in scores` / `scores.get(k, default)`.
* The external judgment call (`_ai_dimensions`, a network call to a hosted
  model) is the capability boundary: `compare_pages` takes its parsed
  result as an `Option AIResult` parameter — `none` is every failure path
  (missing credential, transport error, unparsable JSON), exactly the
  cases where the Python function returns `None`.  Fields that the Python
  code reads with `.get(key, default)` are modelled as total fields whose
  value is the default when the JSON lacked the key; the two spots where
  the code distinguishes an empty dict from a populated one
  (`transactional_clarity` sides) are `Option TransSide`.
* `difflib.SequenceMatcher` with `autojunk=False` and no junk predicate is
  embedded directly: `findLongestMatch` is the `j2len` dynamic program over
  one `i`-loop and one `j`-loop (the popularity/junk extension loops are
  no-ops in this configuration), and `mbGo` is the recursive
  matching-blocks split, run with enough fuel (each recursive call
  strictly shrinks the index intervals, so `|a| + |b| + 1` steps always
  suffice).
-/

/-! ## Python rounding (round half to even) -/

/-- Python `round(q)` — round half to even (banker's rounding). -/
def pyRound (q : ℚ) : ℤ :=
  if q - ⌊q⌋ = 1/2 then (if Even ⌊q⌋ then ⌊q⌋ else ⌊q⌋ + 1) else round q

/-- Python `round(q, 1)`. -/
def pyRound1 (q : ℚ) : ℚ := (pyRound (q * 10) : ℚ) / 10

/-- Python `round(q, 2)`. -/
def pyRound2 (q : ℚ) : ℚ := (pyRound (q * 100) : ℚ) / 100

/-! ## String helpers (Python `str` operations on `List Char`) -/

/-- ASCII whitespace, as stripped by Python `str.strip()` / matched by `\s`. -/
def pyWs (c : Char) : Bool :=
  c == ' ' || c == '\t' || c == '\n' || c == '\x0d' || c == '\x0b' || c == '\x0c'

/-- Python `str.strip()`: drop leading and trailing whitespace. -/
def pyStrip (l : List Char) : List Char :=
  ((l.dropWhile pyWs).reverse.dropWhile pyWs).reverse

/-- Python `str.lower()` (ASCII case folding). -/
def lowerL (l : List Char) : List Char := l.map Char.toLower

/-- The slice `l[i : i + len]`. -/
def subList (l : List Char) (i len : ℕ) : List Char := (l.drop i).take len

/-- Auxiliary scan for `findSub`: leftmost occurrence, reporting `start + i`. -/
def findSubAux (pat : List Char) : List Char → ℕ → Option ℕ
  | [], i => if pat.isPrefixOf [] then some i else none
  | c :: tl, i => if pat.isPrefixOf (c :: tl) then some i else findSubAux pat tl (i + 1)

/-- Python `str.find`: index of the leftmost occurrence of `pat` in `l`,
`none` when absent (Python returns `-1`). -/
def findSub (l pat : List Char) : Option ℕ := findSubAux pat l 0

/-- Python `pat in l` (substring containment). -/
def containsSub (l pat : List Char) : Bool := (findSub l pat).isSome

/-! ## `ai_summary.py` — helpers and weight table -/

/-- Model of `_WEIGHTS` — dimension weights for the overall depth score, in source
order. -/
def WEIGHTS : List (String × ℚ) :=
  [ ("question_coverage",     0.25),
    ("faq_coverage",          0.20),
    ("heading_structure",     0.15),
    ("word_count",            0.15),
    ("transactional_clarity", 0.10),
    ("trust_signals",         0.05),
    ("freshness",             0.05),
    ("internal_linking",      0.05) ]

/-- Model of `_weighted_avg(scores)`:
`round(sum(_WEIGHTS[k] * scores[k] for k in _WEIGHTS if k in scores), 1)`.
A key missing from `scores` is skipped by the `if k in scores` guard. -/
def weighted_avg (scores : List (String × ℤ)) : ℚ :=
  pyRound1 ((WEIGHTS.map (fun p =>
    match scores.lookup p.1 with
    | some v => p.2 * v
    | none => 0)).sum)

/-- Model of `_find_quote(text, keyword, context)`: case-insensitive leftmost search;
on a hit, the surrounding window `text[max(0, idx-20) : min(len, idx+context)]`
stripped of whitespace; `None` otherwise. -/
def find_quote (text keyword : List Char) (context : ℕ) : Option (List Char) :=
  match findSub (lowerL text) (lowerL keyword) with
  | none => none
  | some idx =>
      some (pyStrip (subList text (idx - 20) (min text.length (idx + context) - (idx - 20))))

/-- Model of `_COMPETITION_SLUGS`. -/
def competitionSlugs : List String :=
  ["fa-cup", "world-cup", "champions-league", "europa-league", "euro"]

/-- Model of `_TEAM_QUESTIONS`. -/
def teamQuestions : List String :=
  [ "Where is the stadium and how do I get there?",
    "How much do tickets cost?",
    "How do I actually buy tickets?",
    "When are the next fixtures?",
    "Are there hospitality or premium options?",
    "What should I know as a visitor or away fan?",
    "Is this site trustworthy?" ]

/-- Model of `_COMPETITION_QUESTIONS`. -/
def competitionQuestions : List String :=
  [ "What rounds or stages are available?",
    "Which teams are involved?",
    "When are the matches?",
    "Where are the venues?",
    "How do I buy?",
    "What is the price range?" ]

/-- Model of `_get_questions(slug)`. -/
def get_questions (slug : String) : List String :=
  if competitionSlugs.contains slug then competitionQuestions else teamQuestions

/-! ## Deterministic dimension scorers -/

/-- Decimal rendering of `n` with thousands separators (Python `f"{n:,}"`).
`commaGroup` works on the reversed digit list. -/
def commaGroup : List Char → List Char
  | a :: b :: c :: d :: rest => a :: b :: c :: ',' :: commaGroup (d :: rest)
  | l => l

def commaFmt (n : ℕ) : String :=
  String.mk (commaGroup (toString n).data.reverse).reverse

/-- Result of `_dim_word_count`. -/
structure WcRes where
  score : ℕ
  evidence : String
deriving Repr

/-- Model of `_dim_word_count(wc)` — D1. -/
def dim_word_count (wc : ℕ) : WcRes :=
  { score :=
      if wc < 300 then 2
      else if wc < 600 then 4
      else if wc < 900 then 6
      else if wc < 1200 then 7
      else if wc < 1800 then 8
      else 10,
    evidence := commaFmt wc ++ " words in extracted body text" }

/-- A heading dict `{"level": ..., "text": ...}`. -/
structure Heading where
  level : String
  text : String
deriving Repr, DecidableEq

/-- Result of `_dim_headings`. -/
structure HeadRes where
  base_score : ℤ
  h2_texts : List String
  h3_count : ℕ
  evidence : String
deriving Repr

/-- Model of `_dim_headings(headings)` — D2 base measurement. -/
def dim_headings (headings : List Heading) : HeadRes :=
  let h2s := headings.filter (fun h => h.level == "h2")
  let h3s := headings.filter (fun h => h.level == "h3")
  let n2 := h2s.length
  let n3 := h3s.length
  let base : ℤ :=
    if n2 = 0 then 1
    else if n2 ≤ 2 then 4
    else if n2 ≤ 4 then 6
    else if n3 ≠ 0 then 9
    else 7
  let h2texts := h2s.map (fun h => h.text)
  { base_score := base,
    h2_texts := h2texts,
    h3_count := n3,
    evidence :=
      toString n2 ++ " H2s, " ++ toString n3 ++ " H3s" ++
        (if h2texts ≠ [] then ". H2s: " ++ String.intercalate ", " (h2texts.take 5) else "") }

/-- The trust-signal keyword table of `_dim_trust_signals`, in source order. -/
def trustCategories : List (String × List String) :=
  [ ("guarantee",  ["100% guarantee", "money back guarantee", "guaranteed", "100%"]),
    ("reviews",    ["trustpilot", "reviews", "rated", "stars", "rating"]),
    ("experience", ["years experience", "since 19", "since 20", "established in"]),
    ("security",   ["secure payment", "ssl", "secure checkout", "safe and secure", "encrypted"]),
    ("official",   ["official", "authorised", "authorized", "licensed seller", "official partner"]) ]

/-- One trust keyword's quote at the default context 80, if Python-truthy
(`if quote:` — `None` and the empty string both fail the guard). -/
def truthyQuote (text : List Char) (kw : String) : Option (List Char) :=
  match find_quote text kw.data 80 with
  | none => none
  | some q => if q = [] then none else some q

/-- Result of `_dim_trust_signals`. -/
structure TrustRes where
  score : ℕ
  found_categories : List (String × List Char)
deriving Repr

/-- Model of `_dim_trust_signals(text)` — D4: first truthy-quoted keyword per category
wins; `score = min(10, 2 * len(found))`. -/
def dim_trust_signals (text : List Char) : TrustRes :=
  let found := trustCategories.filterMap (fun p =>
    (p.2.findSome? (truthyQuote text)).map (fun q => (p.1, q)))
  { score := min 10 (2 * found.length), found_categories := found }

/-! ## Freshness regexes (`_dim_freshness`)

Each Python regex is hand-compiled to a positional matcher.  A matcher
`pAt l i` returns the end position of a match starting at `i` (`none` if no
match starts there), following the regex engine's backtracking order
(alternatives left to right, greedy optional parts first).  `searchPat`
scans start positions left to right, giving `re.search` semantics. -/

/-- A regex word character `\w` (ASCII model). -/
def isWordChar (c : Char) : Bool := c.isAlphanum || c == '_'

def isWordAt (l : List Char) (i : ℕ) : Bool :=
  match l[i]? with
  | some c => isWordChar c
  | none => false

/-- Model of `\b` at position `i`: exactly one side is a word character. -/
def wbAt (l : List Char) (i : ℕ) : Bool :=
  if i = 0 then isWordAt l 0 else isWordAt l (i - 1) != isWordAt l i

def chAt (l : List Char) (i : ℕ) (c : Char) : Bool := l[i]? == some c

def isDigitAt (l : List Char) (i : ℕ) : Bool :=
  match l[i]? with
  | some c => c.isDigit
  | none => false

def inRangeAt (l : List Char) (i : ℕ) (lo hi : Char) : Bool :=
  match l[i]? with
  | some c => lo ≤ c && c ≤ hi
  | none => false

/-- The literal `s` matches at position `i` of `l`. -/
def litAt (l : List Char) (i : ℕ) (s : String) : Bool :=
  s.data.isPrefixOf (l.drop i)

/-- Length of the maximal whitespace run starting at `i` (`\s+` is greedy,
and in every use site the following pattern atom is not whitespace, so no
backtracking into the run is possible). -/
def wsLen (l : List Char) (i : ℕ) : ℕ := ((l.drop i).takeWhile pyWs).length

/-- Leftmost match: try `f` at `i, i+1, ...` (`cnt` positions). -/
def scanFirst (f : ℕ → Option ℕ) : ℕ → ℕ → Option (ℕ × ℕ)
  | _, 0 => none
  | i, cnt + 1 =>
    match f i with
    | some e => some (i, e)
    | none => scanFirst f (i + 1) cnt

/-- Model of `re.search` over a text of length `n`: start positions `0..n`. -/
def searchPat (f : ℕ → Option ℕ) (n : ℕ) : Option (ℕ × ℕ) := scanFirst f 0 (n + 1)

/-- Model of `\b(202[5-9](?:/\d{2})?|2025-2[0-9])\b` at one position. -/
def p1At (l : List Char) (i : ℕ) : Option ℕ :=
  if wbAt l i then
    (if litAt l i "202" && inRangeAt l (i + 3) '5' '9' then
        (if chAt l (i + 4) '/' && isDigitAt l (i + 5) && isDigitAt l (i + 6) &&
            wbAt l (i + 7) then some (i + 7)
         else if wbAt l (i + 4) then some (i + 4)
         else none)
     else none).orElse (fun _ =>
      if litAt l i "2025-2" && isDigitAt l (i + 6) && wbAt l (i + 7) then some (i + 7)
      else none)
  else none

def monthsFull : List String :=
  [ "January", "February", "March", "April", "May", "June", "July", "August",
    "September", "October", "November", "December" ]

def monthsAbbr : List String :=
  ["Jan", "Feb", "Mar", "Apr", "May", "Jun", "Jul", "Aug", "Sep", "Oct", "Nov", "Dec"]

/-- Model of `,?\s+202[5-9]\b` — tail of the dated-fixture regex. -/
def p2Year (l : List Char) (u : ℕ) : Option ℕ :=
  let w := wsLen l u
  if w = 0 then none
  else if litAt l (u + w) "202" && inRangeAt l (u + w + 3) '5' '9' && wbAt l (u + w + 4) then
    some (u + w + 4)
  else none

def p2Comma (l : List Char) (s : ℕ) : Option ℕ :=
  (if chAt l s ',' then p2Year l (s + 1) else none).orElse (fun _ => p2Year l s)

/-- Model of `(?:st|nd|rd|th)?` (at most one alternative can match at a position). -/
def p2Sfx (l : List Char) (r : ℕ) : Option ℕ :=
  (["st", "nd", "rd", "th"].findSome? (fun sf =>
      if litAt l r sf then p2Comma l (r + 2) else none)).orElse (fun _ => p2Comma l r)

/-- Model of `\d{1,2}` (greedy: two digits first) followed by the suffix tail. -/
def p2Day (l : List Char) (q : ℕ) : Option ℕ :=
  (if isDigitAt l q && isDigitAt l (q + 1) then p2Sfx l (q + 2) else none).orElse
    (fun _ => if isDigitAt l q then p2Sfx l (q + 1) else none)

/-- Model of `\b(January|…|December)\s+\d{1,2}(?:st|nd|rd|th)?,?\s+202[5-9]\b` at one
position (month names are mutually exclusive at a position). -/
def p2At (l : List Char) (i : ℕ) : Option ℕ :=
  if wbAt l i then
    match monthsFull.findSome? (fun ms => if litAt l i ms then some ms.length else none) with
    | none => none
    | some ml =>
      let w := wsLen l (i + ml)
      if w = 0 then none else p2Day l (i + ml + w)
  else none

/-- Model of `\b(Jan|…|Dec)\s+\d{1,2}\b` at one position (Bool only — the code's
evidence for this branch is the fixed string "fixture dates present"). -/
def p2bAt (l : List Char) (i : ℕ) : Bool :=
  wbAt l i &&
    monthsAbbr.any (fun ms =>
      litAt l i ms &&
        (let w := wsLen l (i + 3)
         decide (w ≠ 0) &&
           (let q := i + 3 + w
            (isDigitAt l q && isDigitAt l (q + 1) && wbAt l (q + 2)) ||
              (isDigitAt l q && wbAt l (q + 1)))))

/-- Model of `base` then optional `s` (greedy) then `\b` — for `recent results?` and
`latest results?`. -/
def p3Opt (lt : List Char) (i : ℕ) (base : String) : Option ℕ :=
  if litAt lt i base then
    (if chAt lt (i + base.length) 's' && wbAt lt (i + base.length + 1) then
       some (i + base.length + 1)
     else if wbAt lt (i + base.length) then some (i + base.length)
     else none)
  else none

/-- Model of `\b(current form|recent results?|latest results?|this season)\b` with
`re.I`, at one position of the lowered text. -/
def p3At (lt : List Char) (i : ℕ) : Option ℕ :=
  if wbAt lt i then
    (if litAt lt i "current form" && wbAt lt (i + 12) then some (i + 12)
     else none).orElse (fun _ =>
    (p3Opt lt i "recent result").orElse (fun _ =>
    (p3Opt lt i "latest result").orElse (fun _ =>
      if litAt lt i "this season" && wbAt lt (i + 11) then some (i + 11) else none)))
  else none

/-- Model of `\b(upcoming|latest|new for|new season)\b` with `re.I`, at one position of
the lowered text. -/
def p4At (lt : List Char) (i : ℕ) : Option ℕ :=
  if wbAt lt i then
    (if litAt lt i "upcoming" && wbAt lt (i + 8) then some (i + 8)
     else none).orElse (fun _ =>
    (if litAt lt i "latest" && wbAt lt (i + 6) then some (i + 6)
     else none).orElse (fun _ =>
    (if litAt lt i "new for" && wbAt lt (i + 7) then some (i + 7)
     else none).orElse (fun _ =>
      if litAt lt i "new season" && wbAt lt (i + 10) then some (i + 10) else none)))
  else none

/-- Result of `_dim_freshness`. -/
structure FreshRes where
  score : ℕ
  signals : List (String × String)
deriving Repr

/-- Model of `_dim_freshness(text)` — D6.  The four signal searches in source order;
`score = min(10, int(len(signals) * 2.5))` — note `int` truncates, so the
score is `min 10 (len * 5 / 2)` with natural division. -/
def dim_freshness (text : List Char) : FreshRes :=
  let s1 :=
    match searchPat (p1At text) text.length with
    | some (i, e) =>
        [("season", "season/year reference: '" ++ String.mk (subList text i (e - i)) ++ "'")]
    | none => []
  let s2 :=
    match searchPat (p2At text) text.length with
    | some (i, e) =>
        [("fixtures", "fixture date: '" ++ String.mk ((subList text i (e - i)).take 60) ++ "'")]
    | none =>
        if (searchPat (fun i => if p2bAt text i then some i else none) text.length).isSome then
          [("fixtures", "fixture dates present")]
        else []
  let lt := lowerL text
  let s3 :=
    match searchPat (p3At lt) text.length with
    | some (i, e) =>
        [("form", "form/results language: '" ++ String.mk ((subList text i (e - i)).take 50) ++ "'")]
    | none => []
  let s4 :=
    match searchPat (p4At lt) text.length with
    | some (i, e) =>
        [("language", "freshness language: '" ++ String.mk (subList text i (e - i)) ++ "'")]
    | none => []
  let signals := s1 ++ s2 ++ s3 ++ s4
  { score := min 10 (signals.length * 5 / 2), signals := signals }

/-- FAQ markers scanned for in the full lowered text (`_dim_faq`). -/
def faqMarkers : List String :=
  ["frequently asked", "faq", "common questions", "people also ask"]

/-- Question-word starts for headings (`_dim_faq`). -/
def questionStarts : List String :=
  ["how ", "what ", "where ", "when ", "can ", "do ", "is ", "are ", "why ", "which ", "will "]

/-- Result of `_dim_faq`. -/
structure FaqRes where
  score : ℕ
  has_explicit_faq : Bool
  question_headings : List String
  evidence : String
deriving Repr

/-- Model of `_dim_faq(text, headings)` — D7. -/
def dim_faq (text : List Char) (headings : List Heading) : FaqRes :=
  let tl := lowerL text
  let hasExplicit := faqMarkers.any (fun kw => containsSub tl kw.data)
  let qh := (headings.filter (fun h =>
    questionStarts.any (fun q => q.data.isPrefixOf (lowerL h.text.data)))).map (fun h => h.text)
  let c := qh.length
  { score :=
      if hasExplicit ∧ 5 ≤ c then 10
      else if hasExplicit ∨ 3 ≤ c then 7
      else if 1 ≤ c then 4
      else 0,
    has_explicit_faq := hasExplicit,
    question_headings := qh,
    evidence :=
      if hasExplicit ∧ c ≠ 0 then
        "Explicit FAQ section with " ++ toString c ++ " question headings"
      else if hasExplicit then
        "Explicit FAQ section found (no question-format headings detected)"
      else if c ≠ 0 then toString c ++ " question-format heading(s) found"
      else "No FAQ section or question-format headings found" }

/-- Result of `_dim_internal_links`. -/
structure IlRes where
  score : ℕ
  count : ℕ
  evidence : String
deriving Repr

/-- Model of `_dim_internal_links(links)` — D8. -/
def dim_internal_links (links : List String) : IlRes :=
  let c := links.length
  { score := if 10 ≤ c then 10 else if 6 ≤ c then 7 else if 3 ≤ c then 5 else 2,
    count := c,
    evidence := toString c ++ " internal links found" }

/-! ## The external judgment result (parsed `_ai_dimensions` JSON) -/

/-- One question's entry in `question_coverage.*.answers`. -/
structure Answer where
  answered : Bool
  quote : Option String
deriving Repr, DecidableEq

/-- One side of `heading_diversity`. -/
structure HDSide where
  score_adjustment : ℤ
  verdict : String
deriving Repr

/-- One side of `question_coverage` (`.get` defaults: score 0, answers empty). -/
structure QCSide where
  score : ℤ
  answers : List (String × Answer)
deriving Repr

/-- One element of `transactional_clarity` (cta / price_range / …). -/
structure TransEl where
  found : Bool
  quote : Option String
deriving Repr

/-- One side of `transactional_clarity`.  The aggregator distinguishes an
absent/empty dict (`Option.none` here) from a populated one. -/
structure TransSide where
  cta : TransEl
  price_range : TransEl
  delivery_method : TransEl
  booking_process : TransEl
  score : ℤ
deriving Repr

/-- Parsed result of the single judgment call. -/
structure AIResult where
  hd_mine : HDSide
  hd_competitor : HDSide
  qc_mine : QCSide
  qc_competitor : QCSide
  tc_mine : Option TransSide
  tc_competitor : Option TransSide
  content_gaps : String
  keywords_they_cover : List String
  recommendations : String

/-! ## Evidence formatting and recommendation helpers -/

/-- Model of `_fmt_question_answers(answers)`. -/
def fmt_question_answers (answers : List (String × Answer)) : String :=
  if answers = [] then "No question coverage data available."
  else
    String.intercalate "\n" (answers.map (fun qa =>
      (if qa.2.answered then "✓" else "✗") ++ " " ++ qa.1 ++
        (match qa.2.quote with
         | some q => if q ≠ "" then ": \"" ++ q ++ "\"" else ""
         | none => "")))

/-- Model of `_fmt_trust(found)`. -/
def fmt_trust (found : List (String × List Char)) : String :=
  if found = [] then "No trust signals detected."
  else
    String.intercalate "; " (found.map (fun p =>
      p.1 ++ ": \"" ++ String.mk (p.2.take 80) ++ "\""))

/-- One line of `_fmt_transactional` (labels are the precomputed
`el.replace("_", " ").title()` values).  A JSON-null quote prints as the
empty string here (the dict-missing default). -/
def fmtTransEl (label : String) (e : TransEl) : String :=
  if e.found then
    "✓ " ++ label ++ ": \"" ++ (match e.quote with | some q => q | none => "") ++ "\""
  else "✗ " ++ label ++ ": not found"

/-- Model of `_fmt_transactional(detail)`. -/
def fmt_transactional (d : Option TransSide) : String :=
  match d with
  | none => "No transactional data available."
  | some ts =>
    String.intercalate "\n"
      [ fmtTransEl "Cta" ts.cta,
        fmtTransEl "Price Range" ts.price_range,
        fmtTransEl "Delivery Method" ts.delivery_method,
        fmtTransEl "Booking Process" ts.booking_process ]

/-- Model of `_reco_word_count(my_wc, comp_wc)`. -/
def reco_word_count (my_wc comp_wc : ℕ) : String :=
  if comp_wc ≤ my_wc then "Word count (" ++ commaFmt my_wc ++ ") is already competitive."
  else
    "Add ~" ++ commaFmt (comp_wc - my_wc) ++ " words to match competitor. " ++
      "Focus on informational sections: stadium guide, travel, FAQs, history."

/-- Model of `_reco_questions(answers)`. -/
def reco_questions (answers : List (String × Answer)) : String :=
  if answers = [] then "Ensure your page answers all key buyer questions."
  else
    let missing := (answers.filter (fun qa => qa.2.answered = false)).map (fun qa => qa.1)
    if missing = [] then "All key buyer questions are answered."
    else "Add content answering: " ++ String.intercalate "; " missing

/-- The `all_cats` list of `_reco_trust`. -/
def allTrustCats : List String := ["guarantee", "reviews", "experience", "security", "official"]

/-- Model of `_reco_trust(found)`. -/
def reco_trust (found : List (String × List Char)) : String :=
  let missing := allTrustCats.filter (fun c => (found.lookup c) = none)
  if missing = [] then "Trust signals are comprehensive."
  else "Add missing trust signals: " ++ String.intercalate ", " missing

/-- Model of `_reco_transactional(detail)`. -/
def reco_transactional (d : Option TransSide) : String :=
  match d with
  | none => "Ensure page has clear CTA, price range, delivery info, and booking process."
  | some ts =>
    let missing := (([ ("cta", ts.cta), ("price range", ts.price_range),
                       ("delivery method", ts.delivery_method),
                       ("booking process", ts.booking_process) ].filter
                      (fun p => p.2.found = false)).map (fun p => p.1))
    if missing = [] then "All transactional elements are present."
    else "Add missing transactional elements: " ++ String.intercalate ", " missing

/-- Model of `_reco_faq(slug)`. -/
def reco_faq (slug : String) : String :=
  let qs := get_questions slug
  "Add a FAQ section with at least 5 questions, including:\n" ++
    String.intercalate "\n" ((qs.take 5).map (fun q => "  - " ++ q))

/-! ## The aggregator: `compare_pages` -/

/-- The D2 final score: `max(1, min(10, base + adjustment))`. -/
def headingFinal (base adj : ℤ) : ℤ := max 1 (min 10 (base + adj))

/-- One entry of the per-dimension output list. -/
structure DimEntry where
  dimension : String
  score_mine : ℤ
  score_competitor : ℤ
  gap : ℤ
  my_evidence : String
  competitor_evidence : String
  recommendation : String

/-- The dict returned by `compare_pages`. -/
structure Report where
  my_depth_score : ℤ
  competitor_depth_score : ℤ
  my_depth_score_weighted : ℚ
  competitor_depth_score_weighted : ℚ
  my_dimension_scores : List (String × ℤ)
  competitor_dimension_scores : List (String × ℤ)
  dimensions : List DimEntry
  content_gaps : String
  keywords_they_cover : List String
  recommendations : String

/-- Model of `compare_pages(...)`: the evidence-based 8-dimension comparison.  The
judgment adapter's parsed result is the `ai` parameter (`none` = the
unavailable fallback).  `slug`, the URLs and the raw texts feed the prompt
in the source; only `slug` and the texts influence the returned report. -/
def compare_pages (slug : String) (my_url : String) (my_text : List Char)
    (my_headings : List Heading) (my_word_count : ℕ) (my_internal_links : List String)
    (competitor_url : String) (competitor_text : List Char)
    (competitor_headings : List Heading) (competitor_word_count : ℕ)
    (competitor_internal_links : List String) (ai : Option AIResult) : Report :=
  let d1_my := dim_word_count my_word_count
  let d1_comp := dim_word_count competitor_word_count
  let d2_my_raw := dim_headings my_headings
  let d2_comp_raw := dim_headings competitor_headings
  let d4_my := dim_trust_signals my_text
  let d4_comp := dim_trust_signals competitor_text
  let d6_my := dim_freshness my_text
  let d6_comp := dim_freshness competitor_text
  let d7_my := dim_faq my_text my_headings
  let d7_comp := dim_faq competitor_text competitor_headings
  let d8_my := dim_internal_links my_internal_links
  let d8_comp := dim_internal_links competitor_internal_links
  -- D2: base score ± Claude diversity adjustment
  let my_d2_adj : ℤ := match ai with | some a => a.hd_mine.score_adjustment | none => 0
  let comp_d2_adj : ℤ := match ai with | some a => a.hd_competitor.score_adjustment | none => 0
  let my_d2_verdict := match ai with
    | some a => a.hd_mine.verdict
    | none => "AI analysis unavailable"
  let comp_d2_verdict := match ai with
    | some a => a.hd_competitor.verdict
    | none => "AI analysis unavailable"
  let d2_score_my := headingFinal d2_my_raw.base_score my_d2_adj
  let d2_score_comp := headingFinal d2_comp_raw.base_score comp_d2_adj
  -- D3, D5, content fields from AI
  let d3_score_my : ℤ := match ai with | some a => a.qc_mine.score | none => 0
  let d3_score_comp : ℤ := match ai with | some a => a.qc_competitor.score | none => 0
  let d3_my_ans := match ai with | some a => a.qc_mine.answers | none => []
  let d3_comp_ans := match ai with | some a => a.qc_competitor.answers | none => []
  let d5_my := match ai with | some a => a.tc_mine | none => none
  let d5_comp := match ai with | some a => a.tc_competitor | none => none
  let d5_score_my : ℤ := match ai with
    | some a => match a.tc_mine with | some ts => ts.score | none => 0
    | none => 0
  let d5_score_comp : ℤ := match ai with
    | some a => match a.tc_competitor with | some ts => ts.score | none => 0
    | none => 0
  let content_gaps := match ai with
    | some a => a.content_gaps
    | none => "[AI analysis unavailable — check ANTHROPIC_API_KEY and credits]"
  let keywords_they_cover := match ai with | some a => a.keywords_they_cover | none => []
  let recommendations := match ai with
    | some a => a.recommendations
    | none => "[AI analysis unavailable]"
  let dimensions : List DimEntry :=
    [ { dimension := "Word Count Adequacy",
        score_mine := d1_my.score,
        score_competitor := d1_comp.score,
        gap := (d1_comp.score : ℤ) - d1_my.score,
        my_evidence := d1_my.evidence,
        competitor_evidence := d1_comp.evidence,
        recommendation := reco_word_count my_word_count competitor_word_count },
      { dimension := "Heading Structure",
        score_mine := d2_score_my,
        score_competitor := d2_score_comp,
        gap := d2_score_comp - d2_score_my,
        my_evidence := d2_my_raw.evidence ++
          (if my_d2_verdict ≠ "" then " — " ++ my_d2_verdict else ""),
        competitor_evidence := d2_comp_raw.evidence ++
          (if comp_d2_verdict ≠ "" then " — " ++ comp_d2_verdict else ""),
        recommendation :=
          if d2_score_my < d2_score_comp then
            "Add more H2s covering distinct subtopics; use H3s for sub-sections."
          else "Heading structure is competitive." },
      { dimension := "Question Coverage",
        score_mine := d3_score_my,
        score_competitor := d3_score_comp,
        gap := d3_score_comp - d3_score_my,
        my_evidence := fmt_question_answers d3_my_ans,
        competitor_evidence := fmt_question_answers d3_comp_ans,
        recommendation := reco_questions d3_my_ans },
      { dimension := "Trust Signals",
        score_mine := d4_my.score,
        score_competitor := d4_comp.score,
        gap := (d4_comp.score : ℤ) - d4_my.score,
        my_evidence := fmt_trust d4_my.found_categories,
        competitor_evidence := fmt_trust d4_comp.found_categories,
        recommendation := reco_trust d4_my.found_categories },
      { dimension := "Transactional Clarity",
        score_mine := d5_score_my,
        score_competitor := d5_score_comp,
        gap := d5_score_comp - d5_score_my,
        my_evidence := fmt_transactional d5_my,
        competitor_evidence := fmt_transactional d5_comp,
        recommendation := reco_transactional d5_my },
      { dimension := "Freshness Signals",
        score_mine := d6_my.score,
        score_competitor := d6_comp.score,
        gap := (d6_comp.score : ℤ) - d6_my.score,
        my_evidence :=
          if d6_my.signals ≠ [] then
            String.intercalate "; " (d6_my.signals.map (fun s => s.2))
          else "No freshness signals detected.",
        competitor_evidence :=
          if d6_comp.signals ≠ [] then
            String.intercalate "; " (d6_comp.signals.map (fun s => s.2))
          else "No freshness signals detected.",
        recommendation :=
          "Add current season year, upcoming fixture dates, and 'latest/upcoming' language." },
      { dimension := "FAQ Coverage",
        score_mine := d7_my.score,
        score_competitor := d7_comp.score,
        gap := (d7_comp.score : ℤ) - d7_my.score,
        my_evidence := d7_my.evidence ++
          (if d7_my.question_headings ≠ [] then
            ": " ++ String.intercalate ", " (d7_my.question_headings.take 3)
           else ""),
        competitor_evidence := d7_comp.evidence ++
          (if d7_comp.question_headings ≠ [] then
            ": " ++ String.intercalate ", " (d7_comp.question_headings.take 3)
           else ""),
        recommendation := reco_faq slug },
      { dimension := "Internal Linking",
        score_mine := d8_my.score,
        score_competitor := d8_comp.score,
        gap := (d8_comp.score : ℤ) - d8_my.score,
        my_evidence := d8_my.evidence,
        competitor_evidence := d8_comp.evidence,
        recommendation :=
          "Add more internal links to related pages. Currently " ++ toString d8_my.count ++
            " — target 10+ with descriptive anchor text." } ]
  let my_scores : List (String × ℤ) :=
    [ ("word_count",            (d1_my.score : ℤ)),
      ("heading_structure",     d2_score_my),
      ("question_coverage",     d3_score_my),
      ("trust_signals",         (d4_my.score : ℤ)),
      ("transactional_clarity", d5_score_my),
      ("freshness",             (d6_my.score : ℤ)),
      ("faq_coverage",          (d7_my.score : ℤ)),
      ("internal_linking",      (d8_my.score : ℤ)) ]
  let comp_scores : List (String × ℤ) :=
    [ ("word_count",            (d1_comp.score : ℤ)),
      ("heading_structure",     d2_score_comp),
      ("question_coverage",     d3_score_comp),
      ("trust_signals",         (d4_comp.score : ℤ)),
      ("transactional_clarity", d5_score_comp),
      ("freshness",             (d6_comp.score : ℤ)),
      ("faq_coverage",          (d7_comp.score : ℤ)),
      ("internal_linking",      (d8_comp.score : ℤ)) ]
  let my_weighted := weighted_avg my_scores
  let comp_weighted := weighted_avg comp_scores
  { my_depth_score := pyRound my_weighted,
    competitor_depth_score := pyRound comp_weighted,
    my_depth_score_weighted := my_weighted,
    competitor_depth_score_weighted := comp_weighted,
    my_dimension_scores := my_scores,
    competitor_dimension_scores := comp_scores,
    dimensions := dimensions,
    content_gaps := content_gaps,
    keywords_they_cover := keywords_they_cover,
    recommendations := recommendations }

/-! ## `diff.py` — the diff / change detector -/

/-- Model of `re.split(r"(?<=[.!?])\s+", text)`: raw pieces, via a left-to-right scan.
`ender` is whether the previous original character was `.`, `!` or `?`; a
whitespace character after an ender starts a (maximal, greedy) delimiter
run.  `acc` is the current piece, reversed. -/
def splitRawAux : ℕ → List Char → Bool → List Char → List (List Char)
  | 0, _, _, acc => [acc.reverse]
  | _ + 1, [], _, acc => [acc.reverse]
  | fuel + 1, c :: rest, ender, acc =>
    if pyWs c ∧ ender then
      acc.reverse :: splitRawAux fuel (rest.dropWhile pyWs) false []
    else
      splitRawAux fuel rest (c == '.' || c == '!' || c == '?') (c :: acc)

/-- Model of `_split_sentences(text)`: split on whitespace runs preceded by `.!?`,
strip each piece, drop empties. -/
def splitSentences (text : List Char) : List (List Char) :=
  ((splitRawAux (text.length + 1) text false []).map pyStrip).filter (fun s => s ≠ [])

/-- Model of `added = [s for s in new_sentences if s not in old_set][:50]`. -/
def addedSentences (old_text new_text : List Char) : List (List Char) :=
  ((splitSentences new_text).filter (fun s => !(splitSentences old_text).contains s)).take 50

/-- Model of `removed = [s for s in old_sentences if s not in new_set][:50]`. -/
def removedSentences (old_text new_text : List Char) : List (List Char) :=
  ((splitSentences old_text).filter (fun s => !(splitSentences new_text).contains s)).take 50

/-! ### `difflib.SequenceMatcher` (autojunk off, no junk predicate) -/

/-- Model of `a[i] == b[j]`, both indices in range. -/
def eqAt (a b : List Char) (i j : ℕ) : Bool :=
  match a[i]?, b[j]? with
  | some x, some y => x == y
  | _, _ => false

/-- One best-candidate update of `find_longest_match`'s inner loop: at `(i, j)`
with run length `k = nj j`, replace the best when `k > bestsize`. -/
def fimUpd (i : ℕ) (nj : ℕ → ℕ) (bst : ℕ × ℕ × ℕ) (j : ℕ) : ℕ × ℕ × ℕ :=
  let k := nj j
  if bst.2.2 < k then (i + 1 - k, j + 1 - k, k) else bst

/-- The inner `for j` loop over `blo, blo+1, …, blo+cnt-1` (increasing). -/
def fimJ (i : ℕ) (nj : ℕ → ℕ) (blo : ℕ) : ℕ → (ℕ × ℕ × ℕ) → (ℕ × ℕ × ℕ)
  | 0, bst => bst
  | cnt + 1, bst => fimUpd i nj (fimJ i nj blo cnt bst) (blo + cnt)

/-- Model of `newj2len`: the length of the matching run ending at `(i, j)`, built from
the previous row (`j2len.get(j - 1, 0) + 1`; entries exist only for
in-window `j` with `b[j] == a[i]`). -/
def fimNext (a b : List Char) (blo bhi : ℕ) (i : ℕ) (j2 : ℕ → ℕ) : ℕ → ℕ :=
  fun j =>
    if blo ≤ j ∧ j < bhi ∧ eqAt a b i j then
      (match j with | 0 => 0 | jj + 1 => j2 jj) + 1
    else 0

/-- The outer `for i` loop over `alo, …, alo+cnt-1`; the state is the current
`j2len` row and the best `(besti, bestj, bestsize)`, initialised to
`(alo, blo, 0)`. -/
def fimLoop (a b : List Char) (alo blo bhi : ℕ) : ℕ → ((ℕ → ℕ) × (ℕ × ℕ × ℕ))
  | 0 => (fun _ => 0, (alo, blo, 0))
  | cnt + 1 =>
    let st := fimLoop a b alo blo bhi cnt
    let nj := fimNext a b blo bhi (alo + cnt) st.1
    (nj, fimJ (alo + cnt) nj blo (bhi - blo) st.2)

/-- Model of `find_longest_match(alo, ahi, blo, bhi)` (the junk/popular extension
loops are no-ops with `isjunk=None` and `autojunk=False`). -/
def findLongestMatch (a b : List Char) (alo ahi blo bhi : ℕ) : ℕ × ℕ × ℕ :=
  (fimLoop a b alo blo bhi (ahi - alo)).2

/-- The recursion of `get_matching_blocks`, summed: total number of matched
characters over `a[alo:ahi] × b[blo:bhi]`.  (The source collects blocks in a
queue and then merges adjacent ones; only the total size feeds `ratio`.)
Fuel: every recursive call strictly shrinks `(ahi - alo) + (bhi - blo)`. -/
def mbGo (a b : List Char) : ℕ → ℕ → ℕ → ℕ → ℕ → ℕ
  | 0, _, _, _, _ => 0
  | fuel + 1, alo, ahi, blo, bhi =>
    let r := findLongestMatch a b alo ahi blo bhi
    if r.2.2 = 0 then 0
    else
      (if alo < r.1 ∧ blo < r.2.1 then mbGo a b fuel alo r.1 blo r.2.1 else 0) + r.2.2 +
        (if r.1 + r.2.2 < ahi ∧ r.2.1 + r.2.2 < bhi then
          mbGo a b fuel (r.1 + r.2.2) ahi (r.2.1 + r.2.2) bhi
         else 0)

/-- Model of `M`: the total matching-block size of `SequenceMatcher(None, a, b)`. -/
def totalMatched (a b : List Char) : ℕ :=
  mbGo a b (a.length + b.length + 1) 0 a.length 0 b.length

/-- Model of `ratio() = 2.0 * M / T`. -/
def ratioQ (a b : List Char) : ℚ :=
  2 * (totalMatched a b : ℚ) / ((a.length : ℚ) + (b.length : ℚ))

/-- The dict returned by `compute_diff`. -/
structure DiffResult where
  change_pct : ℚ
  added_text : List Char
  removed_text : List Char
  is_significant : Bool
deriving Repr, DecidableEq

/-- Model of `compute_diff(old_text, new_text)`.  `None` inputs are already coerced to
`""` by the source before the empty-check. -/
def compute_diff (old_text new_text : List Char) : DiffResult :=
  if old_text = [] ∧ new_text = [] then
    { change_pct := 0, added_text := [], removed_text := [], is_significant := false }
  else
    { change_pct := pyRound2 ((1 - ratioQ old_text new_text) * 100),
      added_text := List.intercalate ['\n'] (addedSentences old_text new_text),
      removed_text := List.intercalate ['\n'] (removedSentences old_text new_text),
      is_significant := false }

/-- Model of `is_significant_change(change_pct, threshold_pct)`. -/
def is_significant_change (change_pct threshold_pct : ℚ) : Bool :=
  threshold_pct ≤ change_pct

/-! ## Spec-side definitions (for refinement comparisons)

These follow the specification's words, to be compared against the
definitions translated from the source. -/

/-- The spec's weight-table dot product over an 8-key score mapping
(§3 WeightedScore, claim C1), in the claim's order. -/
def specDot (qc faq hs wc tc ts fr il : ℤ) : ℚ :=
  0.25 * qc + 0.20 * faq + 0.15 * hs + 0.15 * wc + 0.10 * tc +
    0.05 * ts + 0.05 * fr + 0.05 * il

/-- The spec's "trigger phrase present case-insensitively in `t`". -/
def specPresent (t : List Char) (kw : String) : Prop :=
  lowerL kw.data <:+: lowerL t

instance (t : List Char) (kw : String) : Decidable (specPresent t kw) := by
  unfold specPresent; infer_instance

/-- The spec's freshness `signal_count`: how many of the four independent
signal types are detected (the dated-fixture type counts when either the
full-month or, failing that, the month-abbreviation pattern hits, matching
the source's `elif`). -/
def freshCount (text : List Char) : ℕ :=
  (cond (searchPat (p1At text) text.length).isSome 1 0) +
    (cond ((searchPat (p2At text) text.length).isSome ||
       (searchPat (fun i => if p2bAt text i then some i else none) text.length).isSome) 1 0) +
    (cond (searchPat (p3At (lowerL text)) text.length).isSome 1 0) +
    (cond (searchPat (p4At (lowerL text)) text.length).isSome 1 0)

/-! ## Lemmas: rounding bounds -/

theorem pyRound_nonneg (q : ℚ) (h : 0 ≤ q) : 0 ≤ pyRound q := by
  unfold pyRound
  have hfl : (0 : ℤ) ≤ ⌊q⌋ := Int.floor_nonneg.mpr h
  split
  · split <;> omega
  · have : (0 : ℤ) = ⌊(0 : ℚ) + 1/2⌋ := by norm_num
    rw [round_eq, this]
    exact Int.floor_le_floor (by linarith)

theorem pyRound_le_of_le (q : ℚ) (c : ℤ) (h : q ≤ c) : pyRound q ≤ c := by
  unfold pyRound
  split
  · rename_i htie
    have hfl : ⌊q⌋ + 1 ≤ c := by
      have h1 : (⌊q⌋ : ℚ) + 1/2 ≤ c := by linarith [ htie]
      have h2 : (⌊q⌋ : ℚ) < c := by linarith
      exact_mod_cast Int.lt_iff_add_one_le.mp (by exact_mod_cast h2)
    split <;> omega
  · rw [round_eq]
    have : ⌊q + 1/2⌋ ≤ ⌊(c : ℚ) + 1/2⌋ := Int.floor_le_floor (by linarith)
    have hc : ⌊(c : ℚ) + 1/2⌋ = c := by
      rw [Int.floor_eq_iff] <;> push_cast <;> constructor <;> linarith
    omega

/-! ## Lemmas: substring search and stripping -/

theorem isInfix_of_prefix_drop {pat l : List Char} {d : ℕ} (h : pat <+: l.drop d) :
    pat <:+: l := by
  have hs : l.drop d <:+ l := List.drop_suffix d l
  exact List.IsInfix.trans ( List.IsPrefix.isInfix h) ( List.IsSuffix.isInfix hs)

theorem isInfix_iff_exists_drop {pat l : List Char} :
    pat <:+: l ↔ ∃ d, pat <+: l.drop d := by
  constructor
  · rintro ⟨s, t, rfl⟩
    exact ⟨s.length, t, by rw [List.append_assoc]; exact (List.drop_left s (pat ++ t)).symm⟩
  · rintro ⟨d, h⟩
    exact isInfix_of_prefix_drop h

theorem findSubAux_eq_some {pat : List Char} :
    ∀ (l : List Char) (i j : ℕ), findSubAux pat l i = some j →
      i ≤ j ∧ pat <+: l.drop (j - i) := by
  intro l
  induction l with
  | nil =>
    intro i j h
    rw [findSubAux] at h
    split at h
    · rename_i hp
      obtain rfl : i = j := by simpa using h
      simpa using ( List.isPrefixOf_iff_prefix).mp hp
    · exact absurd h (by simp)
  | cons c tl ih =>
    intro i j h
    rw [findSubAux] at h
    split at h
    · rename_i hp
      obtain rfl : i = j := by simpa using h
      simpa using ( List.isPrefixOf_iff_prefix).mp hp
    · obtain ⟨h1, h2⟩ := ih (i + 1) j h
      refine ⟨by omega, ?_⟩
      have heq : j - i = (j - (i + 1)) + 1 := by omega
      rw [heq]
      simpa using h2

theorem findSubAux_isSome_of {pat : List Char} :
    ∀ (l : List Char) (i d : ℕ), pat.isPrefixOf (l.drop d) = true →
      (findSubAux pat l i).isSome := by
  intro l
  induction l with
  | nil =>
    intro i d h
    rw [List.drop_nil] at h
    rw [findSubAux, if_pos h]
    simp
  | cons c tl ih =>
    intro i d h
    rw [findSubAux]
    split
    · simp
    · rename_i hnp
      match d with
      | 0 => exact absurd (by simpa using h) hnp
      | d' + 1 => exact ih (i + 1) d' (by simpa using h)

theorem findSub_isSome_iff {l pat : List Char} :
    (findSub l pat).isSome ↔ pat <:+: l := by
  constructor
  · intro h
    obtain ⟨j, hj⟩ := Option.isSome_iff_exists.mp h
    obtain ⟨-, h2⟩ := findSubAux_eq_some l 0 j hj
    exact isInfix_of_prefix_drop h2
  · intro h
    obtain ⟨d, hd⟩ := isInfix_iff_exists_drop.mp h
    exact findSubAux_isSome_of l 0 d (( List.isPrefixOf_iff_prefix).mpr hd)

theorem findSub_eq_some_prefix_drop {l pat : List Char} {i : ℕ}
    (h : findSub l pat = some i) : pat <+: l.drop i := by
  have := findSubAux_eq_some l 0 i h
  simpa using this.2

theorem pyStrip_prefix_dropWhile (l : List Char) : pyStrip l <+: l.dropWhile pyWs := by
  unfold pyStrip
  have h : (l.dropWhile pyWs).reverse.dropWhile pyWs <:+ (l.dropWhile pyWs).reverse :=
    List.dropWhile_suffix pyWs
  have h2 : ((l.dropWhile pyWs).reverse.dropWhile pyWs).reverse.reverse <:+
      (l.dropWhile pyWs).reverse := by simpa using h
  exact List.reverse_suffix.mp h2

theorem pyStrip_isInfix_self (l : List Char) : pyStrip l <:+: l :=
  List.IsInfix.trans ( List.IsPrefix.isInfix (pyStrip_prefix_dropWhile l))
    ( List.IsSuffix.isInfix (List.dropWhile_suffix pyWs))

theorem subList_isInfix_self (l : List Char) (i n : ℕ) : subList l i n <:+: l :=
  List.IsInfix.trans ( List.IsPrefix.isInfix ( List.take_prefix n (l.drop i)))
    ( List.IsSuffix.isInfix (List.drop_suffix i l))

theorem pyStrip_eq_nil_iff (l : List Char) : pyStrip l = [] ↔ ∀ c ∈ l, pyWs c := by
  unfold pyStrip
  rw [List.reverse_eq_nil_iff, List.dropWhile_eq_nil_iff]
  simp only [List.mem_reverse]
  constructor
  · intro h c hc
    by_cases hw : pyWs c
    · exact hw
    · have hcd : c ∈ l.dropWhile pyWs := by
        have hsplit := List.takeWhile_append_dropWhile pyWs l
        rw [show l = l.takeWhile pyWs ++ l.dropWhile pyWs from hsplit.symm] at hc
        rcases List.mem_append.mp hc with h1 | h2
        · exact absurd (List.mem_takeWhile_imp h1) hw
        · exact h2
      exact h c hcd
  · intro h c hc
    exact h c ((List.dropWhile_suffix pyWs).subset hc)

theorem pyStrip_ne_nil_of_mem {l : List Char} {c : Char} (hc : c ∈ l)
    (hw : pyWs c = false) : pyStrip l ≠ [] := by
  intro h
  have := (pyStrip_eq_nil_iff l).mp h c hc
  rw [hw] at this
  exact Bool.noConfusion this

/-! ## Lemmas: quotes and trust-signal categories -/

theorem toLower_eq_self_of_pyWs {c : Char} (h : pyWs c = true) : Char.toLower c = c := by
  unfold pyWs at h
  simp only [Bool.or_eq_true, beq_iff_eq] at h
  rcases h with ((((rfl | rfl) | rfl) | rfl) | rfl) | rfl <;> decide

theorem find_quote_eq_some_of {t kw : List Char} {ctx i : ℕ}
    (h : findSub (lowerL t) (lowerL kw) = some i) :
    find_quote t kw ctx =
      some (pyStrip (subList t (i - 20) (min t.length (i + ctx) - (i - 20)))) := by
  unfold find_quote
  rw [h]

theorem find_quote_isInfix_text {t kw : List Char} {ctx : ℕ} {q : List Char}
    (h : find_quote t kw ctx = some q) : q <:+: t := by
  unfold find_quote at h
  cases hfs : findSub (lowerL t) (lowerL kw) with
  | none => rw [hfs] at h; exact absurd h (by simp)
  | some i =>
    rw [hfs] at h
    obtain rfl : pyStrip (subList t (i - 20) (min t.length (i + ctx) - (i - 20))) = q := by
      simpa using h
    exact (pyStrip_isInfix_self _).trans (subList_isInfix_self _ _ _)

theorem find_quote_isSome_iff {t kw : List Char} {ctx : ℕ} :
    (find_quote t kw ctx).isSome ↔ lowerL kw <:+: lowerL t := by
  unfold find_quote
  cases hfs : findSub (lowerL t) (lowerL kw) with
  | none =>
    simp only [Option.isSome_none, Bool.false_eq_true, false_iff]
    intro hinf
    have := findSub_isSome_iff.mpr hinf
    rw [hfs] at this
    exact Bool.noConfusion this
  | some i =>
    simp only [Option.isSome_some, true_iff]
    exact findSub_isSome_iff.mp (by rw [hfs]; rfl)

theorem quote_mem_window {t : List Char} {i ctx : ℕ} {c : Char}
    (hc : t[i]? = some c) (hctx : 0 < ctx) :
    c ∈ subList t (i - 20) (min t.length (i + ctx) - (i - 20)) := by
  have hlt : i < t.length := by
    by_contra hge
    rw [List.getElem?_eq_none (by omega)] at hc
    exact Option.noConfusion hc
  have hie : i < min t.length (i + ctx) := lt_min hlt (by omega)
  have hidx : (subList t (i - 20) (min t.length (i + ctx) - (i - 20)))[i - (i - 20)]? = some c := by
    unfold subList
    rw [List.getElem?_take_of_lt (by omega)]
    rw [List.getElem?_drop]
    rw [show i - 20 + (i - (i - 20)) = i by omega]
    exact hc
  exact List.getElem?_mem hidx

theorem truthyQuote_isSome_of_present {t : List Char} {kw : String} {c₀ : Char}
    {rest : List Char} (hk : kw.data = c₀ :: rest)
    (hws : pyWs (Char.toLower c₀) = false)
    (hpres : lowerL kw.data <:+: lowerL t) : (truthyQuote t kw).isSome := by
  have hsome : (findSub (lowerL t) (lowerL kw.data)).isSome := findSub_isSome_iff.mpr hpres
  obtain ⟨i, hi⟩ := Option.isSome_iff_exists.mp hsome
  have hpre : lowerL kw.data <+: (lowerL t).drop i := findSub_eq_some_prefix_drop hi
  obtain ⟨u, hu⟩ := hpre
  have hhead : (lowerL t)[i]? = some (Char.toLower c₀) := by
    have h0 : ((lowerL t).drop i)[0]? = some (Char.toLower c₀) := by
      rw [show (lowerL t).drop i = lowerL kw.data ++ u from hu.symm, hk]
      simp [lowerL]
    rw [List.getElem?_drop] at h0
    simpa using h0
  have : (t[i]?).map Char.toLower = some (Char.toLower c₀) := by
    rw [show (t[i]?).map Char.toLower = (lowerL t)[i]? from (List.getElem?_map _ _ _).symm]
    exact hhead
  obtain ⟨c, hc, hlc⟩ := Option.map_eq_some'.mp this
  have hcw : pyWs c = false := by
    by_contra hcw
    have hct : pyWs c = true := by
      cases hx : pyWs c
      · exact absurd hx hcw
      · rfl
    have hself := toLower_eq_self_of_pyWs hct
    rw [hself] at hlc
    rw [hlc] at hct
    rw [hws] at hct
    exact Bool.noConfusion hct
  have hmem := quote_mem_window hc (show (0 : ℕ) < 80 by norm_num)
  have hne := pyStrip_ne_nil_of_mem hmem hcw
  unfold truthyQuote
  rw [show find_quote t kw.data 80 =
      some (pyStrip (subList t (i - 20) (min t.length (i + 80) - (i - 20)))) from
    find_quote_eq_some_of hi]
  simp [hne]

theorem truthyQuote_isSome_iff {t : List Char} {kw : String} {c₀ : Char}
    {rest : List Char} (hk : kw.data = c₀ :: rest)
    (hws : pyWs (Char.toLower c₀) = false) :
    (truthyQuote t kw).isSome ↔ specPresent t kw := by
  constructor
  · intro h
    unfold truthyQuote at h
    cases hq : find_quote t kw.data 80 with
    | none => rw [hq] at h; exact absurd h (by simp)
    | some q =>
      exact find_quote_isSome_iff.mp (by rw [hq]; rfl)
  · exact truthyQuote_isSome_of_present hk hws

theorem findSome?_isSome_iff_exists {α β : Type} (f : α → Option β) :
    ∀ l : List α, (l.findSome? f).isSome ↔ ∃ x ∈ l, (f x).isSome := by
  intro l
  induction l with
  | nil => simp [List.findSome?]
  | cons a tl ih =>
    rw [List.findSome?]
    cases hfa : f a with
    | some b => simp [hfa]
    | none => simpa [hfa] using ih

theorem length_filterMap_eq_length_filter {α β : Type} (g : α → Option β) :
    ∀ l : List α, (l.filterMap g).length = (l.filter (fun x => (g x).isSome)).length := by
  intro l
  induction l with
  | nil => rfl
  | cons a tl ih =>
    rw [List.filterMap_cons]
    cases hga : g a with
    | none => simpa [List.filter_cons, hga] using ih
    | some b => simpa [List.filter_cons, hga] using ih

/-! ## Lemmas: the SequenceMatcher dynamic program -/

theorem fimLoop_j2_le (a b : List Char) (alo blo bhi : ℕ) :
    ∀ cnt j, (fimLoop a b alo blo bhi cnt).1 j ≤ cnt := by
  intro cnt
  induction cnt with
  | zero => intro j; exact Nat.le_refl 0
  | succ m ih =>
    intro j
    show fimNext a b blo bhi (alo + m) (fimLoop a b alo blo bhi m).1 j ≤ m + 1
    unfold fimNext
    split
    · cases j with
      | zero => show 0 + 1 ≤ m + 1; omega
      | succ jj =>
        show (fimLoop a b alo blo bhi m).1 jj + 1 ≤ m + 1
        have := ih jj
        omega
    · omega

theorem fimLoop_j2_window (a b : List Char) (alo blo bhi : ℕ) :
    ∀ cnt j, (fimLoop a b alo blo bhi cnt).1 j ≠ 0 →
      blo ≤ j ∧ j < bhi ∧ (fimLoop a b alo blo bhi cnt).1 j ≤ j + 1 - blo := by
  intro cnt
  induction cnt with
  | zero => intro j h; exact absurd rfl h
  | succ m ih =>
    intro j
    show fimNext a b blo bhi (alo + m) (fimLoop a b alo blo bhi m).1 j ≠ 0 →
      blo ≤ j ∧ j < bhi ∧
        fimNext a b blo bhi (alo + m) (fimLoop a b alo blo bhi m).1 j ≤ j + 1 - blo
    unfold fimNext
    split
    · rename_i hcond
      intro _
      refine ⟨hcond.1, hcond.2.1, ?_⟩
      cases j with
      | zero =>
        show 0 + 1 ≤ 0 + 1 - blo
        have : blo = 0 := Nat.le_zero.mp hcond.1
        omega
      | succ jj =>
        show (fimLoop a b alo blo bhi m).1 jj + 1 ≤ jj + 1 + 1 - blo
        by_cases hz : (fimLoop a b alo blo bhi m).1 jj = 0
        · rw [hz]
          have : blo ≤ jj + 1 := hcond.1
          omega
        · obtain ⟨h1, -, h3⟩ := ih jj hz
          omega
    · intro h
      exact absurd rfl h

theorem fimJ_no_update (i : ℕ) (nj : ℕ → ℕ) (blo : ℕ) :
    ∀ cnt (bst : ℕ × ℕ × ℕ), (∀ j, blo ≤ j → j < blo + cnt → nj j ≤ bst.2.2) →
      fimJ i nj blo cnt bst = bst := by
  intro cnt
  induction cnt with
  | zero => intro bst _; rfl
  | succ m ih =>
    intro bst h
    show fimUpd i nj (fimJ i nj blo m bst) (blo + m) = bst
    rw [ih bst (fun j h1 h2 => h j h1 (by omega))]
    unfold fimUpd
    rw [if_neg]
    exact Nat.not_lt.mpr (h (blo + m) (by omega) (by omega))

theorem fimJ_single_update (i : ℕ) (nj : ℕ → ℕ) (blo j0 : ℕ) :
    ∀ cnt (bst : ℕ × ℕ × ℕ), blo ≤ j0 → j0 < blo + cnt → bst.2.2 < nj j0 →
      (∀ j, blo ≤ j → j < j0 → nj j ≤ bst.2.2) →
      (∀ j, j0 < j → j < blo + cnt → nj j ≤ nj j0) →
      fimJ i nj blo cnt bst = (i + 1 - nj j0, j0 + 1 - nj j0, nj j0) := by
  intro cnt
  induction cnt with
  | zero => intro bst _ h2 _ _ _; omega
  | succ m ih =>
    intro bst h1 h2 h3 hlo hhi
    show fimUpd i nj (fimJ i nj blo m bst) (blo + m) = _
    by_cases hj : j0 = blo + m
    · rw [fimJ_no_update i nj blo m bst (fun j ha hb => hlo j ha (by omega))]
      unfold fimUpd
      rw [if_pos (by rw [hj] at h3; exact h3)]
      rw [hj]
    · have hj0m : j0 < blo + m := by omega
      rw [ih bst h1 hj0m h3 hlo (fun j ha hb => hhi j ha (by omega))]
      unfold fimUpd
      rw [if_neg]
      show ¬ _ < nj (blo + m)
      exact Nat.not_lt.mpr (hhi (blo + m) (by omega) (by omega))

theorem fimJ_valid (i alo blo bhi m : ℕ) (nj : ℕ → ℕ) (hi1 : alo ≤ i) (hi2 : i + 1 ≤ m)
    (hnj : ∀ j, nj j ≠ 0 → blo ≤ j ∧ j < bhi ∧ nj j ≤ j + 1 - blo ∧ nj j ≤ i + 1 - alo) :
    ∀ cnt (bst : ℕ × ℕ × ℕ),
      (bst.2.2 = 0 ∨ (alo ≤ bst.1 ∧ bst.1 + bst.2.2 ≤ m ∧ blo ≤ bst.2.1 ∧ bst.2.1 + bst.2.2 ≤ bhi)) →
      ((fimJ i nj blo cnt bst).2.2 = 0 ∨
        (alo ≤ (fimJ i nj blo cnt bst).1 ∧
          (fimJ i nj blo cnt bst).1 + (fimJ i nj blo cnt bst).2.2 ≤ m ∧
          blo ≤ (fimJ i nj blo cnt bst).2.1 ∧
          (fimJ i nj blo cnt bst).2.1 + (fimJ i nj blo cnt bst).2.2 ≤ bhi)) := by
  intro cnt
  induction cnt with
  | zero => intro bst h; exact h
  | succ c ih =>
    intro bst h
    have hstep : fimJ i nj blo (c + 1) bst = fimUpd i nj (fimJ i nj blo c bst) (blo + c) := rfl
    rw [hstep]
    have hprev := ih bst h
    simp only [fimUpd]
    split
    · rename_i hlt
      have hk : nj (blo + c) ≠ 0 := by omega
      obtain ⟨hb1, hb2, hb3, hb4⟩ := hnj (blo + c) hk
      right
      refine ⟨?_, ?_, ?_, ?_⟩
      · show alo ≤ i + 1 - nj (blo + c)
        omega
      · show (i + 1 - nj (blo + c)) + nj (blo + c) ≤ m
        omega
      · show blo ≤ blo + c + 1 - nj (blo + c)
        omega
      · show (blo + c + 1 - nj (blo + c)) + nj (blo + c) ≤ bhi
        omega
    · exact hprev

theorem fimLoop_best_valid (a b : List Char) (alo blo bhi : ℕ) :
    ∀ cnt, ((fimLoop a b alo blo bhi cnt).2.2.2 = 0 ∨
      (alo ≤ (fimLoop a b alo blo bhi cnt).2.1 ∧
        (fimLoop a b alo blo bhi cnt).2.1 + (fimLoop a b alo blo bhi cnt).2.2.2 ≤ alo + cnt ∧
        blo ≤ (fimLoop a b alo blo bhi cnt).2.2.1 ∧
        (fimLoop a b alo blo bhi cnt).2.2.1 + (fimLoop a b alo blo bhi cnt).2.2.2 ≤ bhi)) := by
  intro cnt
  induction cnt with
  | zero => left; rfl
  | succ m ih =>
    show (fimJ (alo + m) (fimNext a b blo bhi (alo + m) (fimLoop a b alo blo bhi m).1) blo
        (bhi - blo) (fimLoop a b alo blo bhi m).2).2.2 = 0 ∨ _
    refine fimJ_valid (alo + m) alo blo bhi (alo + (m + 1)) _ (by omega) (by omega) ?_
        (bhi - blo) (fimLoop a b alo blo bhi m).2 ?_
    · intro j hj
      obtain ⟨h1, h2, h3⟩ := fimLoop_j2_window a b alo blo bhi (m + 1) j hj
      have h4 := fimLoop_j2_le a b alo blo bhi (m + 1) j
      refine ⟨h1, h2, ?_, ?_⟩
      · exact h3
      · show fimNext a b blo bhi (alo + m) (fimLoop a b alo blo bhi m).1 j ≤ alo + m + 1 - alo
        have h4' : fimNext a b blo bhi (alo + m) (fimLoop a b alo blo bhi m).1 j ≤ m + 1 := h4
        omega
    · rcases ih with h | ⟨h1, h2, h3, h4⟩
      · left; exact h
      · right; exact ⟨h1, by omega, h3, h4⟩

theorem findLongestMatch_valid (a b : List Char) (alo ahi blo bhi : ℕ) (halo : alo ≤ ahi)
    (hk : (findLongestMatch a b alo ahi blo bhi).2.2 ≠ 0) :
    alo ≤ (findLongestMatch a b alo ahi blo bhi).1 ∧
      (findLongestMatch a b alo ahi blo bhi).1 + (findLongestMatch a b alo ahi blo bhi).2.2 ≤ ahi ∧
      blo ≤ (findLongestMatch a b alo ahi blo bhi).2.1 ∧
      (findLongestMatch a b alo ahi blo bhi).2.1 + (findLongestMatch a b alo ahi blo bhi).2.2 ≤ bhi := by
  have h := fimLoop_best_valid a b alo blo bhi (ahi - alo)
  unfold findLongestMatch at hk ⊢
  rcases h with h | ⟨h1, h2, h3, h4⟩
  · exact absurd h hk
  · exact ⟨h1, by omega, h3, h4⟩

theorem mbGo_le_left (a b : List Char) :
    ∀ fuel alo ahi blo bhi, mbGo a b fuel alo ahi blo bhi ≤ ahi - alo := by
  intro fuel
  induction fuel with
  | zero => intro alo ahi blo bhi; exact Nat.zero_le _
  | succ f ih =>
    intro alo ahi blo bhi
    show (if (findLongestMatch a b alo ahi blo bhi).2.2 = 0 then 0 else _) ≤ ahi - alo
    split
    · exact Nat.zero_le _
    · rename_i hk
      have halo : alo ≤ ahi := by
        by_contra hgt
        have hc : ahi - alo = 0 := by omega
        have : findLongestMatch a b alo ahi blo bhi = (alo, blo, 0) := by
          unfold findLongestMatch
          rw [hc]
          rfl
        rw [this] at hk
        exact hk rfl
      obtain ⟨h1, h2, h3, h4⟩ := findLongestMatch_valid a b alo ahi blo bhi halo hk
      have hL := ih alo (findLongestMatch a b alo ahi blo bhi).1 blo
        (findLongestMatch a b alo ahi blo bhi).2.1
      have hR := ih ((findLongestMatch a b alo ahi blo bhi).1 +
          (findLongestMatch a b alo ahi blo bhi).2.2) ahi
        ((findLongestMatch a b alo ahi blo bhi).2.1 +
          (findLongestMatch a b alo ahi blo bhi).2.2) bhi
      split <;> split <;> omega

theorem mbGo_le_right (a b : List Char) :
    ∀ fuel alo ahi blo bhi, mbGo a b fuel alo ahi blo bhi ≤ bhi - blo := by
  intro fuel
  induction fuel with
  | zero => intro alo ahi blo bhi; exact Nat.zero_le _
  | succ f ih =>
    intro alo ahi blo bhi
    show (if (findLongestMatch a b alo ahi blo bhi).2.2 = 0 then 0 else _) ≤ bhi - blo
    split
    · exact Nat.zero_le _
    · rename_i hk
      have halo : alo ≤ ahi := by
        by_contra hgt
        have hc : ahi - alo = 0 := by omega
        have : findLongestMatch a b alo ahi blo bhi = (alo, blo, 0) := by
          unfold findLongestMatch
          rw [hc]
          rfl
        rw [this] at hk
        exact hk rfl
      obtain ⟨h1, h2, h3, h4⟩ := findLongestMatch_valid a b alo ahi blo bhi halo hk
      have hL := ih alo (findLongestMatch a b alo ahi blo bhi).1 blo
        (findLongestMatch a b alo ahi blo bhi).2.1
      have hR := ih ((findLongestMatch a b alo ahi blo bhi).1 +
          (findLongestMatch a b alo ahi blo bhi).2.2) ahi
        ((findLongestMatch a b alo ahi blo bhi).2.1 +
          (findLongestMatch a b alo ahi blo bhi).2.2) bhi
      split <;> split <;> omega

theorem totalMatched_le_left (a b : List Char) : totalMatched a b ≤ a.length := by
  have := mbGo_le_left a b (a.length + b.length + 1) 0 a.length 0 b.length
  simpa using this

theorem totalMatched_le_right (a b : List Char) : totalMatched a b ≤ b.length := by
  have := mbGo_le_right a b (a.length + b.length + 1) 0 a.length 0 b.length
  simpa using this

theorem eqAt_diag (l : List Char) (i : ℕ) (h : i < l.length) : eqAt l l i i = true := by
  unfold eqAt
  rw [List.getElem?_eq_getElem h]
  simp

theorem fimLoop_diag (l : List Char) :
    ∀ cnt, cnt ≤ l.length → 0 < cnt →
      (fimLoop l l 0 0 l.length cnt).2 = (0, 0, cnt) ∧
        (fimLoop l l 0 0 l.length cnt).1 (cnt - 1) = cnt := by
  intro cnt
  induction cnt with
  | zero => intro _ h; exact absurd h (by omega)
  | succ m ih =>
    intro hle _
    have hmlt : m < l.length := by omega
    have hdiag : fimNext l l 0 l.length (0 + m) (fimLoop l l 0 0 l.length m).1 m = m + 1 := by
      unfold fimNext
      rw [if_pos ⟨Nat.zero_le m, hmlt, by rw [show 0 + m = m by omega]; exact eqAt_diag l m hmlt⟩]
      cases m with
      | zero => rfl
      | succ mm =>
        obtain ⟨-, hj2⟩ := ih (by omega) (by omega)
        show (fimLoop l l 0 0 l.length (mm + 1)).1 mm + 1 = mm + 1 + 1
        have hj2' : (fimLoop l l 0 0 l.length (mm + 1)).1 mm = mm + 1 := hj2
        rw [hj2']
    have hboundA : ∀ j, fimNext l l 0 l.length (0 + m) (fimLoop l l 0 0 l.length m).1 j ≤ m + 1 :=
      fun j => fimLoop_j2_le l l 0 0 l.length (m + 1) j
    have hboundW : ∀ j, fimNext l l 0 l.length (0 + m) (fimLoop l l 0 0 l.length m).1 j ≠ 0 →
        fimNext l l 0 l.length (0 + m) (fimLoop l l 0 0 l.length m).1 j ≤ j + 1 :=
      fun j hj => by
        have hw : fimNext l l 0 l.length (0 + m) (fimLoop l l 0 0 l.length m).1 j ≤ j + 1 - 0 :=
          (fimLoop_j2_window l l 0 0 l.length (m + 1) j hj).2.2
        omega
    have hbest : (fimLoop l l 0 0 l.length m).2 = (0, 0, m) := by
      cases m with
      | zero => rfl
      | succ mm => exact (ih (by omega) (by omega)).1
    constructor
    · show fimJ (0 + m) (fimNext l l 0 l.length (0 + m) (fimLoop l l 0 0 l.length m).1) 0
        (l.length - 0) (fimLoop l l 0 0 l.length m).2 = (0, 0, m + 1)
      rw [hbest]
      rw [fimJ_single_update (0 + m) _ 0 m (l.length - 0) (0, 0, m) (Nat.zero_le m)
        (by omega)
        (by show m < fimNext l l 0 l.length (0 + m) (fimLoop l l 0 0 l.length m).1 m
            rw [hdiag]; omega)
        ?_ ?_]
      · rw [hdiag]
        show (0 + m + 1 - (m + 1), m + 1 - (m + 1), m + 1) = (0, 0, m + 1)
        rw [show 0 + m + 1 - (m + 1) = 0 by omega, show m + 1 - (m + 1) = 0 by omega]
      · intro j _ hjm
        show fimNext l l 0 l.length (0 + m) (fimLoop l l 0 0 l.length m).1 j ≤ m
        by_cases hz : fimNext l l 0 l.length (0 + m) (fimLoop l l 0 0 l.length m).1 j = 0
        · rw [hz]; exact Nat.zero_le m
        · have := hboundW j hz
          omega
      · intro j _ _
        rw [hdiag]
        exact hboundA j
    · show fimNext l l 0 l.length (0 + m) (fimLoop l l 0 0 l.length m).1 (m + 1 - 1) = m + 1
      rw [show m + 1 - 1 = m from rfl]
      exact hdiag

theorem findLongestMatch_diag (l : List Char) (h : l ≠ []) :
    findLongestMatch l l 0 l.length 0 l.length = (0, 0, l.length) := by
  unfold findLongestMatch
  rw [show l.length - 0 = l.length from rfl]
  exact (fimLoop_diag l l.length (Nat.le_refl _) (List.length_pos.mpr h)).1

theorem totalMatched_self (l : List Char) (h : l ≠ []) : totalMatched l l = l.length := by
  have hn : 0 < l.length := List.length_pos.mpr h
  unfold totalMatched
  show mbGo l l ((l.length + l.length) + 1) 0 l.length 0 l.length = l.length
  rw [mbGo]
  rw [findLongestMatch_diag l h]
  simp only []
  rw [if_neg (show ¬ l.length = 0 by omega)]
  rw [if_neg (by simp)]
  rw [if_neg (by omega)]
  omega

/-! ## Lemmas: ratio bounds and the diff result -/

theorem ratioQ_nonneg (a b : List Char) : 0 ≤ ratioQ a b := by
  unfold ratioQ
  apply div_nonneg
  · positivity
  · positivity

theorem ratioQ_le_one (a b : List Char) (h : ¬(a = [] ∧ b = [])) : ratioQ a b ≤ 1 := by
  unfold ratioQ
  have hT : (0 : ℚ) < (a.length : ℚ) + (b.length : ℚ) := by
    have : a.length ≠ 0 ∨ b.length ≠ 0 := by
      by_contra hc
      push_neg at hc
      exact h ⟨List.length_eq_zero.mp hc.1, List.length_eq_zero.mp hc.2⟩
    rcases this with h1 | h1
    · have : (0 : ℚ) < (a.length : ℚ) := by exact_mod_cast Nat.pos_of_ne_zero h1
      positivity
    · have : (0 : ℚ) < (b.length : ℚ) := by exact_mod_cast Nat.pos_of_ne_zero h1
      positivity
  rw [div_le_one hT]
  have h1 := totalMatched_le_left a b
  have h2 := totalMatched_le_right a b
  have : (totalMatched a b : ℚ) ≤ (a.length : ℚ) := by exact_mod_cast h1
  have : (totalMatched a b : ℚ) ≤ (b.length : ℚ) := by exact_mod_cast h2
  linarith

theorem pyRound2_bounds {q : ℚ} (h0 : 0 ≤ q) (h100 : q ≤ 100) :
    0 ≤ pyRound2 q ∧ pyRound2 q ≤ 100 := by
  unfold pyRound2
  have hn := pyRound_nonneg (q * 100) (by linarith)
  have hl := pyRound_le_of_le (q * 100) 10000 (by push_cast; linarith)
  constructor
  · have : (0 : ℚ) ≤ (pyRound (q * 100) : ℚ) := by exact_mod_cast hn
    linarith
  · have : (pyRound (q * 100) : ℚ) ≤ 10000 := by exact_mod_cast hl
    linarith

theorem compute_diff_self_pct (t : List Char) (h : t ≠ []) :
    (compute_diff t t).change_pct = 0 := by
  unfold compute_diff
  rw [if_neg (by intro hc; exact h hc.1)]
  show pyRound2 ((1 - ratioQ t t) * 100) = 0
  have hr : ratioQ t t = 1 := by
    unfold ratioQ
    rw [totalMatched_self t h]
    have hn : (0 : ℚ) < (t.length : ℚ) := by
      exact_mod_cast List.length_pos.mpr h
    field_simp
    ring
  rw [hr]
  norm_num [pyRound2, pyRound]

/-! ## Lemmas: freshness signal count and trust categories -/

theorem dim_freshness_signals_length (t : List Char) :
    (dim_freshness t).signals.length = freshCount t := by
  unfold dim_freshness freshCount
  rcases h1 : searchPat (p1At t) t.length with - | ⟨i1, e1⟩ <;>
    rcases h2 : searchPat (p2At t) t.length with - | ⟨i2, e2⟩ <;>
      rcases h3 : searchPat (p3At (lowerL t)) t.length with - | ⟨i3, e3⟩ <;>
        rcases h4 : searchPat (p4At (lowerL t)) t.length with - | ⟨i4, e4⟩ <;>
          simp only [h1, h2, h3, h4, Option.isSome_some, Option.isSome_none] <;>
            first
            | (cases h2b : (searchPat (fun i => if p2bAt t i then some i else none)
                  t.length).isSome <;> simp [h2b])
            | simp

theorem dim_freshness_score_eq (t : List Char) :
    (dim_freshness t).score = min 10 (freshCount t * 5 / 2) := by
  show min 10 ((dim_freshness t).signals.length * 5 / 2) = _
  rw [dim_freshness_signals_length]

theorem freshCount_le_four (t : List Char) : freshCount t ≤ 4 := by
  unfold freshCount
  rcases (searchPat (p1At t) t.length).isSome <;>
    rcases ((searchPat (p2At t) t.length).isSome ||
        (searchPat (fun i => if p2bAt t i then some i else none) t.length).isSome) <;>
      rcases (searchPat (p3At (lowerL t)) t.length).isSome <;>
        rcases (searchPat (p4At (lowerL t)) t.length).isSome <;> simp

theorem trustKw_iff (t : List Char) (p : String × List String)
    (hp : p ∈ trustCategories) :
    ((p.2.findSome? (truthyQuote t)).map (fun q => (p.1, q))).isSome =
      p.2.any (fun kw => decide (specPresent t kw)) := by
  have hmap : ∀ (o : Option (List Char)), (Option.map (fun q => (p.1, q)) o).isSome = o.isSome := by
    intro o
    cases o <;> rfl
  rw [hmap]
  rw [Bool.eq_iff_iff, findSome?_isSome_iff_exists, List.any_eq_true]
  constructor
  · rintro ⟨kw, hkw, hq⟩
    refine ⟨kw, hkw, ?_⟩
    rw [decide_eq_true_eq]
    revert hq
    unfold truthyQuote
    cases hfq : find_quote t kw.data 80 with
    | none => intro hq; exact absurd hq (by simp)
    | some q =>
      intro _
      exact find_quote_isSome_iff.mp (by rw [hfq]; rfl)
  · rintro ⟨kw, hkw, hpres⟩
    rw [decide_eq_true_eq] at hpres
    refine ⟨kw, hkw, ?_⟩
    fin_cases hp <;> fin_cases hkw <;>
      exact truthyQuote_isSome_of_present rfl (by decide) hpres

theorem dim_trust_found_length (t : List Char) :
    (dim_trust_signals t).found_categories.length =
      (trustCategories.filter (fun p => p.2.any (fun kw => decide (specPresent t kw)))).length := by
  show (trustCategories.filterMap (fun p =>
      (p.2.findSome? (truthyQuote t)).map (fun q => (p.1, q)))).length = _
  rw [length_filterMap_eq_length_filter]
  congr 1
  apply List.filter_congr
  intro p hp
  exact trustKw_iff t p hp

theorem dim_trust_quote_isInfix_text (t : List Char) :
    ∀ pq ∈ (dim_trust_signals t).found_categories, pq.2 <:+: t := by
  intro pq hpq
  have hpq' : pq ∈ trustCategories.filterMap (fun p =>
      (p.2.findSome? (truthyQuote t)).map (fun q => (p.1, q))) := hpq
  rw [List.mem_filterMap] at hpq'
  obtain ⟨p, -, hsome⟩ := hpq'
  cases hfs : p.2.findSome? (truthyQuote t) with
  | none => rw [hfs] at hsome; exact absurd hsome (by simp)
  | some q =>
    rw [hfs] at hsome
    obtain rfl : (p.1, q) = pq := by simpa using hsome
    obtain ⟨kw, -, hkw⟩ := List.exists_of_findSome?_eq_some hfs
    revert hkw
    unfold truthyQuote
    cases hfq : find_quote t kw.data 80 with
    | none => intro hkw; exact absurd hkw (by simp)
    | some q' =>
      intro hkw
      rw [show (match some q' with
          | none => none
          | some q => if q = [] then none else some q) =
            (if q' = [] then none else some q') from rfl] at hkw
      have : q' = q := by
        by_cases hq' : q' = []
        · rw [if_pos hq'] at hkw; exact absurd hkw (by simp)
        · rw [if_neg hq'] at hkw; simpa using hkw
      subst this
      exact find_quote_isInfix_text hfq

/-! ## Lemmas: the weighted average -/

theorem pyRound1_bounds {q : ℚ} (h0 : 0 ≤ q) (h10 : q ≤ 10) :
    0 ≤ pyRound1 q ∧ pyRound1 q ≤ 10 := by
  unfold pyRound1
  have hn := pyRound_nonneg (q * 10) (by linarith)
  have hl := pyRound_le_of_le (q * 10) 100 (by push_cast; linarith)
  constructor
  · have : (0 : ℚ) ≤ (pyRound (q * 10) : ℚ) := by exact_mod_cast hn
    linarith
  · have : (pyRound (q * 10) : ℚ) ≤ 100 := by exact_mod_cast hl
    linarith

theorem weighted_avg_lookup (scores : List (String × ℤ)) (qc faq hs wc tc ts fr il : ℤ)
    (h1 : scores.lookup "question_coverage" = some qc)
    (h2 : scores.lookup "faq_coverage" = some faq)
    (h3 : scores.lookup "heading_structure" = some hs)
    (h4 : scores.lookup "word_count" = some wc)
    (h5 : scores.lookup "transactional_clarity" = some tc)
    (h6 : scores.lookup "trust_signals" = some ts)
    (h7 : scores.lookup "freshness" = some fr)
    (h8 : scores.lookup "internal_linking" = some il) :
    weighted_avg scores = pyRound1 (specDot qc faq hs wc tc ts fr il) := by
  unfold weighted_avg WEIGHTS
  simp only [List.map_cons, List.map_nil, List.sum_cons, List.sum_nil]
  rw [h1, h2, h3, h4, h5, h6, h7, h8]
  show pyRound1 ((0.25 : ℚ) * qc + ((0.20 : ℚ) * faq + ((0.15 : ℚ) * hs + ((0.15 : ℚ) * wc +
    ((0.10 : ℚ) * tc + ((0.05 : ℚ) * ts + ((0.05 : ℚ) * fr + ((0.05 : ℚ) * il + 0)))))))) = _
  unfold specDot
  congr 1
  ring

theorem specDot_bounds (qc faq hs wc tc ts fr il : ℤ)
    (hqc : 0 ≤ qc ∧ qc ≤ 10) (hfaq : 0 ≤ faq ∧ faq ≤ 10) (hhs : 0 ≤ hs ∧ hs ≤ 10)
    (hwc : 0 ≤ wc ∧ wc ≤ 10) (htc : 0 ≤ tc ∧ tc ≤ 10) (hts : 0 ≤ ts ∧ ts ≤ 10)
    (hfr : 0 ≤ fr ∧ fr ≤ 10) (hil : 0 ≤ il ∧ il ≤ 10) :
    0 ≤ specDot qc faq hs wc tc ts fr il ∧ specDot qc faq hs wc tc ts fr il ≤ 10 := by
  have c1 : (0 : ℚ) ≤ (qc : ℚ) ∧ (qc : ℚ) ≤ 10 := by exact_mod_cast hqc
  have c2 : (0 : ℚ) ≤ (faq : ℚ) ∧ (faq : ℚ) ≤ 10 := by exact_mod_cast hfaq
  have c3 : (0 : ℚ) ≤ (hs : ℚ) ∧ (hs : ℚ) ≤ 10 := by exact_mod_cast hhs
  have c4 : (0 : ℚ) ≤ (wc : ℚ) ∧ (wc : ℚ) ≤ 10 := by exact_mod_cast hwc
  have c5 : (0 : ℚ) ≤ (tc : ℚ) ∧ (tc : ℚ) ≤ 10 := by exact_mod_cast htc
  have c6 : (0 : ℚ) ≤ (ts : ℚ) ∧ (ts : ℚ) ≤ 10 := by exact_mod_cast hts
  have c7 : (0 : ℚ) ≤ (fr : ℚ) ∧ (fr : ℚ) ≤ 10 := by exact_mod_cast hfr
  have c8 : (0 : ℚ) ≤ (il : ℚ) ∧ (il : ℚ) ≤ 10 := by exact_mod_cast hil
  unfold specDot
  constructor
  · nlinarith [c1.1, c2.1, c3.1, c4.1, c5.1, c6.1, c7.1, c8.1]
  · nlinarith [c1.2, c2.2, c3.2, c4.2, c5.2, c6.2, c7.2, c8.2]

/-! ## Claim theorems -/

/-- C1: for every 8-key dimension score mapping with integer values in
[0, 10], the weighted overall score equals the fixed weight table's dot
product (question_coverage 0.25, faq_coverage 0.20, heading_structure 0.15,
word_count 0.15, transactional_clarity 0.10, trust_signals 0.05,
freshness 0.05, internal_linking 0.05) rounded to one decimal place, and
the result lies in [0, 10]. -/
theorem C1_weighted_score (scores : List (String × ℤ)) (qc faq hs wc tc ts fr il : ℤ)
    (h1 : scores.lookup "question_coverage" = some qc)
    (h2 : scores.lookup "faq_coverage" = some faq)
    (h3 : scores.lookup "heading_structure" = some hs)
    (h4 : scores.lookup "word_count" = some wc)
    (h5 : scores.lookup "transactional_clarity" = some tc)
    (h6 : scores.lookup "trust_signals" = some ts)
    (h7 : scores.lookup "freshness" = some fr)
    (h8 : scores.lookup "internal_linking" = some il)
    (hqc : 0 ≤ qc ∧ qc ≤ 10) (hfaq : 0 ≤ faq ∧ faq ≤ 10) (hhs : 0 ≤ hs ∧ hs ≤ 10)
    (hwc : 0 ≤ wc ∧ wc ≤ 10) (htc : 0 ≤ tc ∧ tc ≤ 10) (hts : 0 ≤ ts ∧ ts ≤ 10)
    (hfr : 0 ≤ fr ∧ fr ≤ 10) (hil : 0 ≤ il ∧ il ≤ 10) :
    weighted_avg scores = pyRound1 (specDot qc faq hs wc tc ts fr il) ∧
      0 ≤ weighted_avg scores ∧ weighted_avg scores ≤ 10 := by
  have heq := weighted_avg_lookup scores qc faq hs wc tc ts fr il h1 h2 h3 h4 h5 h6 h7 h8
  have hb := specDot_bounds qc faq hs wc tc ts fr il hqc hfaq hhs hwc htc hts hfr hil
  have hr := pyRound1_bounds hb.1 hb.2
  exact ⟨heq, by rw [heq]; exact hr.1, by rw [heq]; exact hr.2⟩

/-- C1 witness: the all-tens mapping. -/
theorem C1_weighted_score_witness :
    weighted_avg
        [ ("question_coverage", 10), ("faq_coverage", 10), ("heading_structure", 10),
          ("word_count", 10), ("transactional_clarity", 10), ("trust_signals", 10),
          ("freshness", 10), ("internal_linking", 10) ] =
      pyRound1 (specDot 10 10 10 10 10 10 10 10) ∧
      0 ≤ weighted_avg
        [ ("question_coverage", 10), ("faq_coverage", 10), ("heading_structure", 10),
          ("word_count", 10), ("transactional_clarity", 10), ("trust_signals", 10),
          ("freshness", 10), ("internal_linking", 10) ] ∧
      weighted_avg
        [ ("question_coverage", 10), ("faq_coverage", 10), ("heading_structure", 10),
          ("word_count", 10), ("transactional_clarity", 10), ("trust_signals", 10),
          ("freshness", 10), ("internal_linking", 10) ] ≤ 10 :=
  C1_weighted_score _ 10 10 10 10 10 10 10 10 rfl rfl rfl rfl rfl rfl rfl rfl
    (by norm_num) (by norm_num) (by norm_num) (by norm_num) (by norm_num) (by norm_num)
    (by norm_num) (by norm_num)

/-- C9 counterexample: with `internal_linking` missing from the mapping,
`_weighted_avg` does not reject the input — it silently computes the
weighted sum of the seven present keys (all tens gives 0.95 × 10 = 9.5). -/
theorem C9_missing_key_counterexample :
    weighted_avg
        [ ("question_coverage", 10), ("faq_coverage", 10), ("heading_structure", 10),
          ("word_count", 10), ("transactional_clarity", 10), ("trust_signals", 10),
          ("freshness", 10) ] = 19/2 := by
  unfold weighted_avg WEIGHTS
  simp only [List.map_cons, List.map_nil, List.sum_cons, List.sum_nil]
  rw [show (List.lookup "question_coverage"
      [ ("question_coverage", (10 : ℤ)), ("faq_coverage", 10), ("heading_structure", 10),
        ("word_count", 10), ("transactional_clarity", 10), ("trust_signals", 10),
        ("freshness", 10) ]) = some 10 from rfl]
  rw [show (List.lookup "faq_coverage"
      [ ("question_coverage", (10 : ℤ)), ("faq_coverage", 10), ("heading_structure", 10),
        ("word_count", 10), ("transactional_clarity", 10), ("trust_signals", 10),
        ("freshness", 10) ]) = some 10 from rfl]
  rw [show (List.lookup "heading_structure"
      [ ("question_coverage", (10 : ℤ)), ("faq_coverage", 10), ("heading_structure", 10),
        ("word_count", 10), ("transactional_clarity", 10), ("trust_signals", 10),
        ("freshness", 10) ]) = some 10 from rfl]
  rw [show (List.lookup "word_count"
      [ ("question_coverage", (10 : ℤ)), ("faq_coverage", 10), ("heading_structure", 10),
        ("word_count", 10), ("transactional_clarity", 10), ("trust_signals", 10),
        ("freshness", 10) ]) = some 10 from rfl]
  rw [show (List.lookup "transactional_clarity"
      [ ("question_coverage", (10 : ℤ)), ("faq_coverage", 10), ("heading_structure", 10),
        ("word_count", 10), ("transactional_clarity", 10), ("trust_signals", 10),
        ("freshness", 10) ]) = some 10 from rfl]
  rw [show (List.lookup "trust_signals"
      [ ("question_coverage", (10 : ℤ)), ("faq_coverage", 10), ("heading_structure", 10),
        ("word_count", 10), ("transactional_clarity", 10), ("trust_signals", 10),
        ("freshness", 10) ]) = some 10 from rfl]
  rw [show (List.lookup "freshness"
      [ ("question_coverage", (10 : ℤ)), ("faq_coverage", 10), ("heading_structure", 10),
        ("word_count", 10), ("transactional_clarity", 10), ("trust_signals", 10),
        ("freshness", 10) ]) = some 10 from rfl]
  rw [show (List.lookup "internal_linking"
      [ ("question_coverage", (10 : ℤ)), ("faq_coverage", 10), ("heading_structure", 10),
        ("word_count", 10), ("transactional_clarity", 10), ("trust_signals", 10),
        ("freshness", 10) ]) = none from rfl]
  show pyRound1 ((0.25 : ℚ) * (10 : ℤ) + ((0.20 : ℚ) * (10 : ℤ) + ((0.15 : ℚ) * (10 : ℤ) +
    ((0.15 : ℚ) * (10 : ℤ) + ((0.10 : ℚ) * (10 : ℤ) + ((0.05 : ℚ) * (10 : ℤ) +
      ((0.05 : ℚ) * (10 : ℤ) + (0 + 0)))))))) = 19/2
  rw [show (0.25 : ℚ) * (10 : ℤ) + ((0.20 : ℚ) * (10 : ℤ) + ((0.15 : ℚ) * (10 : ℤ) +
    ((0.15 : ℚ) * (10 : ℤ) + ((0.10 : ℚ) * (10 : ℤ) + ((0.05 : ℚ) * (10 : ℤ) +
      ((0.05 : ℚ) * (10 : ℤ) + (0 + 0))))))) = (19 : ℚ)/2 by push_cast; norm_num]
  unfold pyRound1 pyRound
  norm_num [round_eq, Int.floor_eq_iff]

/-- C9 amended: a dimension key missing from the input mapping is silently
skipped by `_weighted_avg`'s `if k in scores` guard — the result is the
weighted sum of the present keys only (rounded to one decimal), not a
fail-fast rejection. -/
theorem C9_missing_key_skipped (qc faq hs wc tc ts fr : ℤ) :
    weighted_avg
        [ ("question_coverage", qc), ("faq_coverage", faq), ("heading_structure", hs),
          ("word_count", wc), ("transactional_clarity", tc), ("trust_signals", ts),
          ("freshness", fr) ] =
      pyRound1 (0.25 * qc + 0.20 * faq + 0.15 * hs + 0.15 * wc + 0.10 * tc +
        0.05 * ts + 0.05 * fr) := by
  unfold weighted_avg WEIGHTS
  simp only [List.map_cons, List.map_nil, List.sum_cons, List.sum_nil]
  rw [show (List.lookup "question_coverage"
      [ ("question_coverage", qc), ("faq_coverage", faq), ("heading_structure", hs),
        ("word_count", wc), ("transactional_clarity", tc), ("trust_signals", ts),
        ("freshness", fr) ]) = some qc from rfl]
  rw [show (List.lookup "faq_coverage"
      [ ("question_coverage", qc), ("faq_coverage", faq), ("heading_structure", hs),
        ("word_count", wc), ("transactional_clarity", tc), ("trust_signals", ts),
        ("freshness", fr) ]) = some faq from rfl]
  rw [show (List.lookup "heading_structure"
      [ ("question_coverage", qc), ("faq_coverage", faq), ("heading_structure", hs),
        ("word_count", wc), ("transactional_clarity", tc), ("trust_signals", ts),
        ("freshness", fr) ]) = some hs from rfl]
  rw [show (List.lookup "word_count"
      [ ("question_coverage", qc), ("faq_coverage", faq), ("heading_structure", hs),
        ("word_count", wc), ("transactional_clarity", tc), ("trust_signals", ts),
        ("freshness", fr) ]) = some wc from rfl]
  rw [show (List.lookup "transactional_clarity"
      [ ("question_coverage", qc), ("faq_coverage", faq), ("heading_structure", hs),
        ("word_count", wc), ("transactional_clarity", tc), ("trust_signals", ts),
        ("freshness", fr) ]) = some tc from rfl]
  rw [show (List.lookup "trust_signals"
      [ ("question_coverage", qc), ("faq_coverage", faq), ("heading_structure", hs),
        ("word_count", wc), ("transactional_clarity", tc), ("trust_signals", ts),
        ("freshness", fr) ]) = some ts from rfl]
  rw [show (List.lookup "freshness"
      [ ("question_coverage", qc), ("faq_coverage", faq), ("heading_structure", hs),
        ("word_count", wc), ("transactional_clarity", tc), ("trust_signals", ts),
        ("freshness", fr) ]) = some fr from rfl]
  rw [show (List.lookup "internal_linking"
      [ ("question_coverage", qc), ("faq_coverage", faq), ("heading_structure", hs),
        ("word_count", wc), ("transactional_clarity", tc), ("trust_signals", ts),
        ("freshness", fr) ]) = none from rfl]
  show pyRound1 ((0.25 : ℚ) * qc + ((0.20 : ℚ) * faq + ((0.15 : ℚ) * hs +
    ((0.15 : ℚ) * wc + ((0.10 : ℚ) * tc + ((0.05 : ℚ) * ts +
      ((0.05 : ℚ) * fr + (0 + 0)))))))) = _
  congr 1
  ring

/-- C5: the heading-structure base score is 1 with no H2s, 4 with 1–2 H2s,
6 with 3–4 H2s, 9 with more than 4 H2s and at least one H3, 7 with more
than 4 H2s and no H3; and for every integer adjustment the final score
`clamp(base + adjustment, 1, 10)` lies in [1, 10]. -/
theorem C5_heading_structure (headings : List Heading) (adj : ℤ) :
    ((headings.filter (fun h => h.level == "h2")).length = 0 →
      (dim_headings headings).base_score = 1) ∧
    (1 ≤ (headings.filter (fun h => h.level == "h2")).length →
      (headings.filter (fun h => h.level == "h2")).length ≤ 2 →
      (dim_headings headings).base_score = 4) ∧
    (3 ≤ (headings.filter (fun h => h.level == "h2")).length →
      (headings.filter (fun h => h.level == "h2")).length ≤ 4 →
      (dim_headings headings).base_score = 6) ∧
    (5 ≤ (headings.filter (fun h => h.level == "h2")).length →
      1 ≤ (headings.filter (fun h => h.level == "h3")).length →
      (dim_headings headings).base_score = 9) ∧
    (5 ≤ (headings.filter (fun h => h.level == "h2")).length →
      (headings.filter (fun h => h.level == "h3")).length = 0 →
      (dim_headings headings).base_score = 7) ∧
    1 ≤ headingFinal (dim_headings headings).base_score adj ∧
    headingFinal (dim_headings headings).base_score adj ≤ 10 := by
  refine ⟨?_, ?_, ?_, ?_, ?_, ?_, ?_⟩
  · intro h
    show (if (headings.filter (fun h => h.level == "h2")).length = 0 then (1 : ℤ)
      else if (headings.filter (fun h => h.level == "h2")).length ≤ 2 then 4
      else if (headings.filter (fun h => h.level == "h2")).length ≤ 4 then 6
      else if (headings.filter (fun h => h.level == "h3")).length ≠ 0 then 9
      else 7) = 1
    rw [if_pos h]
  · intro h1 h2
    show (if (headings.filter (fun h => h.level == "h2")).length = 0 then (1 : ℤ)
      else if (headings.filter (fun h => h.level == "h2")).length ≤ 2 then 4
      else if (headings.filter (fun h => h.level == "h2")).length ≤ 4 then 6
      else if (headings.filter (fun h => h.level == "h3")).length ≠ 0 then 9
      else 7) = 4
    rw [if_neg (by omega), if_pos h2]
  · intro h1 h2
    show (if (headings.filter (fun h => h.level == "h2")).length = 0 then (1 : ℤ)
      else if (headings.filter (fun h => h.level == "h2")).length ≤ 2 then 4
      else if (headings.filter (fun h => h.level == "h2")).length ≤ 4 then 6
      else if (headings.filter (fun h => h.level == "h3")).length ≠ 0 then 9
      else 7) = 6
    rw [if_neg (by omega), if_neg (by omega), if_pos h2]
  · intro h1 h2
    show (if (headings.filter (fun h => h.level == "h2")).length = 0 then (1 : ℤ)
      else if (headings.filter (fun h => h.level == "h2")).length ≤ 2 then 4
      else if (headings.filter (fun h => h.level == "h2")).length ≤ 4 then 6
      else if (headings.filter (fun h => h.level == "h3")).length ≠ 0 then 9
      else 7) = 9
    rw [if_neg (by omega), if_neg (by omega), if_neg (by omega), if_pos (by omega)]
  · intro h1 h2
    show (if (headings.filter (fun h => h.level == "h2")).length = 0 then (1 : ℤ)
      else if (headings.filter (fun h => h.level == "h2")).length ≤ 2 then 4
      else if (headings.filter (fun h => h.level == "h2")).length ≤ 4 then 6
      else if (headings.filter (fun h => h.level == "h3")).length ≠ 0 then 9
      else 7) = 7
    rw [if_neg (by omega), if_neg (by omega), if_neg (by omega), if_neg (by omega)]
  · exact le_max_left 1 _
  · exact max_le (by norm_num) (min_le_left 10 _)

/-- C5 witness: five H2s and one H3 give base 9; an adjustment of −100
still clamps into [1, 10]. -/
theorem C5_heading_structure_witness :
    (dim_headings
        [ ⟨"h2", "a"⟩, ⟨"h2", "b"⟩, ⟨"h2", "c"⟩, ⟨"h2", "d"⟩, ⟨"h2", "e"⟩,
          ⟨"h3", "f"⟩ ]).base_score = 9 ∧
    1 ≤ headingFinal (dim_headings
        [ ⟨"h2", "a"⟩, ⟨"h2", "b"⟩, ⟨"h2", "c"⟩, ⟨"h2", "d"⟩, ⟨"h2", "e"⟩,
          ⟨"h3", "f"⟩ ]).base_score (-100) ∧
    headingFinal (dim_headings
        [ ⟨"h2", "a"⟩, ⟨"h2", "b"⟩, ⟨"h2", "c"⟩, ⟨"h2", "d"⟩, ⟨"h2", "e"⟩,
          ⟨"h3", "f"⟩ ]).base_score (-100) ≤ 10 := by
  have h := C5_heading_structure
    [ ⟨"h2", "a"⟩, ⟨"h2", "b"⟩, ⟨"h2", "c"⟩, ⟨"h2", "d"⟩, ⟨"h2", "e"⟩, ⟨"h3", "f"⟩ ] (-100)
  exact ⟨h.2.2.2.1 (by decide) (by decide), h.2.2.2.2.2.1, h.2.2.2.2.2.2⟩

/-- C4 counterexample: on "2025 current form upcoming" exactly three signal
types fire (season token, form language, freshness language), the code's
`int(3 × 2.5)` truncates to 7, while the claimed `round(3 × 2.5)` is 8
(under round-half-up and under Python's round-half-even alike). -/
theorem C4_round_counterexample :
    (dim_freshness "2025 current form upcoming".data).score = 7 ∧
    freshCount "2025 current form upcoming".data = 3 ∧
    min 10 (round ((3 : ℚ) * 5 / 2)) = (8 : ℤ) ∧
    min 10 (pyRound ((3 : ℚ) * 5 / 2)) = (8 : ℤ) := by
  refine ⟨by decide, by decide, ?_, ?_⟩
  · norm_num [round_eq, Int.floor_eq_iff]
  · unfold pyRound
    norm_num [round_eq, Int.floor_eq_iff]
    rw [if_neg (by decide)]
    norm_num

/-- C4 amended: the freshness score equals
`min(10, int(signal_count × 2.5))` — `int` truncation, i.e. natural-number
division `signal_count * 5 / 2` — over at most 4 distinct detected signal
types, not `round(signal_count × 2.5)`. -/
theorem C4_freshness_score (t : List Char) :
    (dim_freshness t).score = min 10 (freshCount t * 5 / 2) ∧
      freshCount t ≤ 4 ∧
      (dim_freshness t).signals.length = freshCount t :=
  ⟨dim_freshness_score_eq t, freshCount_le_four t, dim_freshness_signals_length t⟩

/-- C3: for every text, the trust-signal score equals
`min(10, 2 × categories_found)` and, since at most the five fixed
categories can be found, exactly `2 × categories_found`; the number of
found categories is the number of categories with at least one trigger
phrase present case-insensitively; and every recorded evidence quote is a
verbatim (whitespace-trimmed) substring of the text. -/
theorem C3_trust_signals (t : List Char) :
    (dim_trust_signals t).score = 2 * (dim_trust_signals t).found_categories.length ∧
    (dim_trust_signals t).found_categories.length =
      (trustCategories.filter (fun p => p.2.any (fun kw => decide (specPresent t kw)))).length ∧
    ∀ pq ∈ (dim_trust_signals t).found_categories, pq.2 <:+: t := by
  refine ⟨?_, dim_trust_found_length t, dim_trust_quote_isInfix_text t⟩
  show min 10 (2 * (dim_trust_signals t).found_categories.length) = _
  have hlen : (dim_trust_signals t).found_categories.length ≤ 5 := by
    have h := List.length_filterMap_le (fun p =>
      (p.2.findSome? (truthyQuote t)).map (fun q => (p.1, q))) trustCategories
    exact h
  omega

/-- C3 witness: on "We are official." the `official` category fires and
its quote is a substring of the text. -/
theorem C3_trust_signals_witness :
    (dim_trust_signals "We are official.".data).score =
      2 * (dim_trust_signals "We are official.".data).found_categories.length ∧
    ("official", "We are official.".data) ∈
      (dim_trust_signals "We are official.".data).found_categories ∧
    ("official", "We are official.".data).2 <:+: "We are official.".data := by
  have h := C3_trust_signals "We are official.".data
  exact ⟨h.1, by decide, h.2.2 ("official", "We are official.".data) (by decide)⟩

/-- C8: `_find_quote` succeeds exactly when the keyword occurs
case-insensitively in the text; on a hit at index `i` it returns the
whitespace-trimmed window `text[max(0, i-20) : min(len, i+context)]`, and
every non-null result is a substring of the source text. -/
theorem C8_find_quote (t kw : List Char) (ctx : ℕ) :
    ((find_quote t kw ctx).isSome ↔ lowerL kw <:+: lowerL t) ∧
    (∀ i, findSub (lowerL t) (lowerL kw) = some i →
      find_quote t kw ctx =
        some (pyStrip (subList t (i - 20) (min t.length (i + ctx) - (i - 20))))) ∧
    (∀ q, find_quote t kw ctx = some q → q <:+: t) := by
  refine ⟨find_quote_isSome_iff, ?_, ?_⟩
  · intro i hi
    exact find_quote_eq_some_of hi
  · intro q hq
    exact find_quote_isInfix_text hq

/-- C8 witness: searching "Hello World out there" for "world" (context 80)
hits at index 6 and returns the trimmed window, a substring of the text. -/
theorem C8_find_quote_witness :
    find_quote "Hello World out there".data "world".data 80 =
      some (pyStrip (subList "Hello World out there".data (6 - 20)
        (min "Hello World out there".data.length (6 + 80) - (6 - 20)))) ∧
    pyStrip (subList "Hello World out there".data (6 - 20)
        (min "Hello World out there".data.length (6 + 80) - (6 - 20))) <:+:
      "Hello World out there".data := by
  have h := C8_find_quote "Hello World out there".data "world".data 80
  exact ⟨h.2.1 6 (by decide), h.2.2 _ (h.2.1 6 (by decide))⟩

/-- C6: the change percentage is `round((1 − ratio) × 100, 2)` with
`ratio = 2M/T` from the greedy matching-block algorithm over the raw
character sequences (no auto-junk); two empty inputs short-circuit to 0.0;
identical non-empty texts give 0.0; and the result always lies in
[0, 100]. -/
theorem C6_change_pct :
    (∀ old_text new_text : List Char, ¬(old_text = [] ∧ new_text = []) →
      (compute_diff old_text new_text).change_pct =
        pyRound2 ((1 - ratioQ old_text new_text) * 100)) ∧
    (compute_diff [] []).change_pct = 0 ∧
    (∀ t : List Char, t ≠ [] → (compute_diff t t).change_pct = 0) ∧
    (∀ old_text new_text : List Char,
      0 ≤ (compute_diff old_text new_text).change_pct ∧
        (compute_diff old_text new_text).change_pct ≤ 100) := by
  refine ⟨?_, rfl, compute_diff_self_pct, ?_⟩
  · intro o n h
    unfold compute_diff
    rw [if_neg h]
  · intro o n
    unfold compute_diff
    split
    · norm_num
    · rename_i h
      show 0 ≤ pyRound2 ((1 - ratioQ o n) * 100) ∧ pyRound2 ((1 - ratioQ o n) * 100) ≤ 100
      have h1 := ratioQ_nonneg o n
      have h2 := ratioQ_le_one o n h
      exact pyRound2_bounds (by linarith) (by linarith)

/-- C6 witness: concrete instances of the empty short-circuit, the
identical-text case, the formula and the bounds. -/
theorem C6_change_pct_witness :
    (compute_diff "abc".data "abc".data).change_pct = 0 ∧
    (compute_diff "a".data "b".data).change_pct =
      pyRound2 ((1 - ratioQ "a".data "b".data) * 100) ∧
    0 ≤ (compute_diff "a".data "b".data).change_pct ∧
    (compute_diff "a".data "b".data).change_pct ≤ 100 := by
  have h := C6_change_pct
  exact ⟨h.2.2.1 "abc".data (by decide), h.1 "a".data "b".data (by decide),
    (h.2.2.2 "a".data "b".data).1, (h.2.2.2 "a".data "b".data).2⟩

set_option maxRecDepth 100000 in
/-- C7 counterexample: the greedy matching-block total is not symmetric —
for old = "abXcd", new = "cdYabcd" the matcher finds 4 matching characters
one way and only 2 the other way, so `change_pct` is 33.33 one way and
66.67 the other. -/
theorem C7_ratio_asymmetry_counterexample :
    totalMatched "abXcd".data "cdYabcd".data = 4 ∧
    totalMatched "cdYabcd".data "abXcd".data = 2 ∧
    (compute_diff "abXcd".data "cdYabcd".data).change_pct = 3333/100 ∧
    (compute_diff "cdYabcd".data "abXcd".data).change_pct = 6667/100 ∧
    (compute_diff "abXcd".data "cdYabcd".data).change_pct ≠
      (compute_diff "cdYabcd".data "abXcd".data).change_pct := by
  have hM1 : totalMatched "abXcd".data "cdYabcd".data = 4 := by decide
  have hM2 : totalMatched "cdYabcd".data "abXcd".data = 2 := by decide
  have hp1 : (compute_diff "abXcd".data "cdYabcd".data).change_pct = 3333/100 := by
    unfold compute_diff
    rw [if_neg (by decide)]
    show pyRound2 ((1 - ratioQ "abXcd".data "cdYabcd".data) * 100) = 3333/100
    unfold ratioQ
    rw [hM1]
    rw [show ("abXcd".data.length : ℚ) = 5 by norm_num]
    rw [show ("cdYabcd".data.length : ℚ) = 7 by norm_num]
    unfold pyRound2 pyRound
    norm_num [round_eq, Int.floor_eq_iff]
  have hp2 : (compute_diff "cdYabcd".data "abXcd".data).change_pct = 6667/100 := by
    unfold compute_diff
    rw [if_neg (by decide)]
    show pyRound2 ((1 - ratioQ "cdYabcd".data "abXcd".data) * 100) = 6667/100
    unfold ratioQ
    rw [hM2]
    rw [show ("abXcd".data.length : ℚ) = 5 by norm_num]
    rw [show ("cdYabcd".data.length : ℚ) = 7 by norm_num]
    unfold pyRound2 pyRound
    norm_num [round_eq, Int.floor_eq_iff]
  refine ⟨hM1, hM2, hp1, hp2, ?_⟩
  rw [hp1, hp2]
  norm_num

/-- C7 amended: the sentences added by `compute_diff(old, new)` equal the
sentences removed by `compute_diff(new, old)` — after the 50-entry cap and
newline join — but the character-level ratio term (hence `change_pct`) is
**not** symmetric under swapping old and new in general. -/
theorem C7_added_removed_swap (old_text new_text : List Char) :
    (compute_diff old_text new_text).added_text =
      (compute_diff new_text old_text).removed_text := by
  unfold compute_diff
  by_cases h : old_text = [] ∧ new_text = []
  · rw [if_pos h, if_pos ⟨h.2, h.1⟩]
  · rw [if_neg h, if_neg (by tauto)]
    show List.intercalate ['\n'] (addedSentences old_text new_text) =
      List.intercalate ['\n'] (removedSentences new_text old_text)
    rfl

/-- C2: when the judgment adapter is unavailable (`ai = none` — missing
credential, transport error or unparsable response all return `None` in the
source), `compare_pages` still returns a complete report: question_coverage
and transactional_clarity score 0 on both sides, `content_gaps` and
`recommendations` carry the explicit "AI analysis unavailable" fallback
strings, the five deterministic dimensions carry their normally computed
scores, and heading_structure keeps its unadjusted base score clamped to
[1, 10] rather than zeroing out. -/
theorem C2_adapter_unavailable (slug my_url : String) (my_text : List Char)
    (my_headings : List Heading) (my_word_count : ℕ) (my_internal_links : List String)
    (competitor_url : String) (competitor_text : List Char)
    (competitor_headings : List Heading) (competitor_word_count : ℕ)
    (competitor_internal_links : List String) :
    let r := compare_pages slug my_url my_text my_headings my_word_count my_internal_links
      competitor_url competitor_text competitor_headings competitor_word_count
      competitor_internal_links none
    r.my_dimension_scores.lookup "question_coverage" = some 0 ∧
    r.competitor_dimension_scores.lookup "question_coverage" = some 0 ∧
    r.my_dimension_scores.lookup "transactional_clarity" = some 0 ∧
    r.competitor_dimension_scores.lookup "transactional_clarity" = some 0 ∧
    r.content_gaps = "[AI analysis unavailable — check ANTHROPIC_API_KEY and credits]" ∧
    r.recommendations = "[AI analysis unavailable]" ∧
    r.my_dimension_scores.lookup "word_count" = some ((dim_word_count my_word_count).score : ℤ) ∧
    r.competitor_dimension_scores.lookup "word_count" =
      some ((dim_word_count competitor_word_count).score : ℤ) ∧
    r.my_dimension_scores.lookup "trust_signals" =
      some ((dim_trust_signals my_text).score : ℤ) ∧
    r.competitor_dimension_scores.lookup "trust_signals" =
      some ((dim_trust_signals competitor_text).score : ℤ) ∧
    r.my_dimension_scores.lookup "freshness" = some ((dim_freshness my_text).score : ℤ) ∧
    r.competitor_dimension_scores.lookup "freshness" =
      some ((dim_freshness competitor_text).score : ℤ) ∧
    r.my_dimension_scores.lookup "faq_coverage" =
      some ((dim_faq my_text my_headings).score : ℤ) ∧
    r.competitor_dimension_scores.lookup "faq_coverage" =
      some ((dim_faq competitor_text competitor_headings).score : ℤ) ∧
    r.my_dimension_scores.lookup "internal_linking" =
      some ((dim_internal_links my_internal_links).score : ℤ) ∧
    r.competitor_dimension_scores.lookup "internal_linking" =
      some ((dim_internal_links competitor_internal_links).score : ℤ) ∧
    r.my_dimension_scores.lookup "heading_structure" =
      some (headingFinal (dim_headings my_headings).base_score 0) ∧
    r.competitor_dimension_scores.lookup "heading_structure" =
      some (headingFinal (dim_headings competitor_headings).base_score 0) := by
  intro r
  refine ⟨?_, ?_, ?_, ?_, ?_, ?_, ?_, ?_, ?_, ?_, ?_, ?_, ?_, ?_, ?_, ?_, ?_, ?_⟩ <;> rfl

/-- C10: for every input and every judgment outcome (available or not), the
report's `dimensions` list has exactly the 8 fixed entries in order, and
each side's dimension-score mapping has exactly the 8 fixed weight keys. -/
theorem C10_report_shape (slug my_url : String) (my_text : List Char)
    (my_headings : List Heading) (my_word_count : ℕ) (my_internal_links : List String)
    (competitor_url : String) (competitor_text : List Char)
    (competitor_headings : List Heading) (competitor_word_count : ℕ)
    (competitor_internal_links : List String) (ai : Option AIResult) :
    let r := compare_pages slug my_url my_text my_headings my_word_count my_internal_links
      competitor_url competitor_text competitor_headings competitor_word_count
      competitor_internal_links ai
    r.dimensions.map (fun d => d.dimension) =
      [ "Word Count Adequacy", "Heading Structure", "Question Coverage", "Trust Signals",
        "Transactional Clarity", "Freshness Signals", "FAQ Coverage", "Internal Linking" ] ∧
    r.my_dimension_scores.map (fun p => p.1) =
      [ "word_count", "heading_structure", "question_coverage", "trust_signals",
        "transactional_clarity", "freshness", "faq_coverage", "internal_linking" ] ∧
    r.competitor_dimension_scores.map (fun p => p.1) =
      [ "word_count", "heading_structure", "question_coverage", "trust_signals",
        "transactional_clarity", "freshness", "faq_coverage", "internal_linking" ] ∧
    r.dimensions.length = 8 := by
  intro r
  exact ⟨rfl, rfl, rfl, rfl⟩
